import Mathlib

/-!
# AudioReactiveControls: the PulseAudio monitor

A shallow embedding of `audio_monitor/src/pa_monitor.hpp` (with the binding of
`audio_monitor/src/ext.cpp`): the bounded sample buffer `FixedDeque`, the public
reads `get_data` / `queue_length`, the constructor, the callback chain of the
redirection handshake, the capture/playback bridge `stream_read_cb` and the
teardown `stop()`.

Conventions of the embedding.
* A `std::deque<T>` is the list of its elements, front first.
* `size_t` values are natural numbers; where the source multiplies or negates a
  `size_t` the result is reduced modulo `2 ^ 64`.
* A pointer member (`mainloop`, `context`, the two streams) is a `Bool`: `true`
  when the pointer is non-null.
* A `std::string` is the list of its characters.
* Calls into libpulse that send a request to the server are appended to a trace,
  each together with the values `sink_idx` and `virtual_sink_idx` had when the
  call was made.
-/

namespace AudioReactiveControls

/-! ## Constants -/

/-- The number of values of a `size_t` on the 64-bit targets the program is built for. -/
def SIZE_T_RANGE : Nat := 18446744073709551616

/-- The sentinel of libpulse for an index that is not resolved, `(uint32_t) -1`
in `pulse/def.h`. -/
def PA_INVALID_INDEX : Nat := 4294967295

/-- The volume of libpulse that stands for 0 dB, `0x10000U` in `pulse/volume.h`. -/
def PA_VOLUME_NORM : Nat := 65536

/-- The sample rate, `const int RATE = 44100`. -/
def RATE : Nat := 44100

/-- The channel count, `const int CHANNELS = 2`. -/
def CHANNELS : Nat := 2

/-- A sample, `using DataType = int16_t`. -/
abbrev DataType := Int

/-- The value of `sizeof(DataType)`. -/
def sizeof_DataType : Nat := 2

/-! ## FixedDeque -/

/-- The class `FixedDeque<T>`: the deque `dq_`, front first, and `max_size_`. -/
structure FixedDeque (T : Type) where
  dq_ : List T
  max_size_ : Nat
deriving DecidableEq

namespace FixedDeque

variable {T : Type}

/-- The constructor `FixedDeque(size_t max_size)`: an empty deque. -/
def new (max_size : Nat) : FixedDeque T :=
  { dq_ := [], max_size_ := max_size }

/-- The member `size()`. -/
def size (d : FixedDeque T) : Nat :=
  d.dq_.length

/-- The member `push`: when `dq_.size() == max_size_` the front is popped, then the
value is pushed at the back. `pop_front` on an empty deque has no defined
behaviour in C++, so that path gives `none`. -/
def push (d : FixedDeque T) (value : T) : Option (FixedDeque T) :=
  if d.dq_.length = d.max_size_ then
    match d.dq_ with
    | [] => none
    | _ :: rest => some { d with dq_ := rest ++ [value] }
  else
    some { d with dq_ := d.dq_ ++ [value] }

/-- The member `insert(dst, begin, end)`, with the iterator `dst` given as its
distance from `begin()`: a plain `dq_.insert`. -/
def insert (d : FixedDeque T) (dst : Nat) (block : List T) : FixedDeque T :=
  { d with dq_ := d.dq_.take dst ++ block ++ d.dq_.drop dst }

/-- The member `erase(begin, end)`, both iterators given as distances from
`begin()`. -/
def erase (d : FixedDeque T) (first last : Nat) : FixedDeque T :=
  { d with dq_ := d.dq_.take first ++ d.dq_.drop last }

/-- A run of `push` calls, in order; `none` as soon as one of them is undefined. -/
def pushAll (d : FixedDeque T) : List T → Option (FixedDeque T)
  | [] => some d
  | v :: vs => (d.push v).bind fun d1 => pushAll d1 vs

end FixedDeque

/-! ## The monitor object -/

/-- The members of the class `PulseAudioMonitor`, with their default member
initialisers. -/
structure PulseAudioMonitor where
  mainloop : Bool := false
  mainloop_api : Bool := false
  context : Bool := false
  monitored_source_name : List Char := []
  sink_name : List Char := []
  sample_specifications : Bool := false
  channel_map : Bool := false
  data_queue : FixedDeque DataType := FixedDeque.new (RATE * CHANNELS * 20)
  current_sink_volume : Nat := PA_VOLUME_NORM
  current_sink_input_volume : Nat := PA_VOLUME_NORM
  sink_idx : Nat := PA_INVALID_INDEX
  sink_input_idx : Nat := PA_INVALID_INDEX
  virtual_sink_module_idx : Nat := PA_INVALID_INDEX
  virtual_sink_idx : Nat := PA_INVALID_INDEX
  virtual_sink_name : List Char := []
  virtual_sink_monitor_name : List Char := []
  playback_stream : Bool := false
  record_stream : Bool := false
  delay_bytes : Nat := 0
deriving DecidableEq

/-- The member `get_data(length, data)`: the new monitor and the new contents of
the vector `data`. The product `length * CHANNELS` is a `size_t` product; past the
test it is at most `data_queue.size()`, so `begin() + length * CHANNELS` is the
iterator at that distance from the front. -/
def get_data (m : PulseAudioMonitor) (length : Nat) (data : List DataType) :
    PulseAudioMonitor × List DataType :=
  let n := (length * CHANNELS) % SIZE_T_RANGE
  if m.data_queue.size < n then
    (m, data)
  else
    ({ m with data_queue := m.data_queue.erase 0 n }, data ++ m.data_queue.dq_.take n)

/-- The member `queue_length()`. -/
def queue_length (m : PulseAudioMonitor) : Nat :=
  m.data_queue.size

/-- The binding `get_data` of `ext.cpp`: the `int` argument is converted to
`size_t`, the vector starts empty, and the array returned has `data.size()`
entries. -/
def ext_get_data (self : PulseAudioMonitor) (n_samples : Int) :
    PulseAudioMonitor × List DataType :=
  get_data self (n_samples % (SIZE_T_RANGE : Int)).toNat []

/-! ## Requests, callbacks and the session -/

/-- The static member functions that libpulse calls back. -/
inductive Callback where
  | context_state_cb
  | get_monitored_sink_idx_cb
  | get_sink_input_idx_cb
  | create_virtual_sink_cb
  | get_virtual_sink_idx_cb
  | redirect_sink_input_to_virtual_sink_cb
  | get_virtual_sink_monitor_name_cb
  | stream_read_cb
  | get_sink_volume_cb
  | get_sink_input_volume_cb
  | redirect_sink_input_cb
  | unload_module_cb
deriving DecidableEq

/-- The calls of the program that send a request to the audio server, with the
arguments the source passes. -/
inductive Request where
  | context_connect
  | get_sink_info_by_name (name : List Char) (cb : Callback)
  | get_sink_input_info_list (cb : Callback)
  | load_module (name : List Char) (argument : List Char) (cb : Callback)
  | move_sink_input_by_index (idx : Nat) (sink_idx : Nat) (cb : Callback)
  | get_sink_info_by_index (idx : Nat) (cb : Callback)
  | get_sink_input_info (idx : Nat) (cb : Callback)
  | unload_module (idx : Nat) (cb : Callback)
  | stream_connect_record (dev : List Char)
  | stream_connect_playback (dev : List Char) (maxlength : Nat) (tlength : Nat)
  | stream_write (data : List DataType)
  | stream_disconnect_record
  | stream_disconnect_playback
  | context_disconnect
deriving DecidableEq

/-- A request in the trace, with `sink_idx` and `virtual_sink_idx` as they were
when the call was made. -/
structure Issued where
  request : Request
  sink_idx : Nat
  virtual_sink_idx : Nat
deriving DecidableEq

/-- The monitor together with what the event loop and the server have seen of it:
the requests made so far, the callbacks that were registered with an operation or
a stream, and whether `mainloop_api->quit` was called. -/
structure Session where
  monitor : PulseAudioMonitor
  trace : List Issued := []
  pending : List Callback := []
  quit_called : Bool := false
deriving DecidableEq

/-- A call that sends `r` to the server. -/
def Session.issue (s : Session) (r : Request) : Session :=
  { s with trace := s.trace ++ [⟨r, s.monitor.sink_idx, s.monitor.virtual_sink_idx⟩] }

/-- Registration of a callback; `ok` tells whether libpulse returned an operation
(a null operation never calls back). -/
def Session.register (s : Session) (cb : Callback) (ok : Bool) : Session :=
  if ok then { s with pending := cb :: s.pending } else s

/-- The call `mainloop_api->quit(mainloop_api, 1)`. -/
def Session.quit (s : Session) : Session :=
  { s with quit_called := true }

/-! ## The constructor -/

/-- The member `std::string::find(pattern)`: the position of the first occurrence
of the pattern, `none` for `std::string::npos`. -/
def string_find (pat : List Char) : List Char → Option Nat
  | [] => if pat.isPrefixOf [] then some 0 else none
  | c :: cs =>
    if pat.isPrefixOf (c :: cs) then some 0
    else (string_find pat cs).map (· + 1)

/-- The literal `".monitor"`. -/
def monitor_suffix : List Char := ['.', 'm', 'o', 'n', 'i', 't', 'o', 'r']

/-- The constructor `PulseAudioMonitor(monitored_source_name, delay_seconds)`.
The product `delay_seconds * RATE * CHANNELS * sizeof(DataType)`, converted to
`size_t`, is the argument `delay_bytes`; the result of `generateRandomString(8)` is
the argument `random_string`. Without `".monitor"` in the name the constructor
returns before anything is created. -/
def PulseAudioMonitor.new (monitored_source_name : List Char) (delay_bytes : Nat)
    (random_string : List Char) : Session :=
  let m : PulseAudioMonitor :=
    { monitored_source_name := monitored_source_name, delay_bytes := delay_bytes }
  match string_find monitor_suffix m.monitored_source_name with
  | none => { monitor := m }
  | some pos =>
    let sink_name := m.monitored_source_name.take pos
    let m1 : PulseAudioMonitor :=
      { m with
        sink_name := sink_name
        virtual_sink_name :=
          "pa_monitor-".toList ++ sink_name ++ "-null_sink-".toList ++ random_string
        mainloop := true
        mainloop_api := true
        context := true
        sample_specifications := true
        channel_map := true }
    { monitor := m1
      trace := [⟨Request.context_connect, m1.sink_idx, m1.virtual_sink_idx⟩]
      pending := [Callback.context_state_cb] }

/-! ## The handshake callbacks -/

/-- The states of `pa_context_state_t`. -/
inductive ContextState where
  | UNCONNECTED
  | CONNECTING
  | AUTHORIZING
  | SETTING_NAME
  | READY
  | FAILED
  | TERMINATED
deriving DecidableEq

/-- The callback `context_state_cb`, with the state `pa_context_get_state` gives;
`op_ok` tells whether the operation it starts was created. -/
def context_state_cb (s : Session) (state : ContextState) (op_ok : Bool) : Session :=
  match state with
  | .READY =>
    (s.issue (.get_sink_info_by_name s.monitor.sink_name .get_monitored_sink_idx_cb)).register
      .get_monitored_sink_idx_cb op_ok
  | .FAILED => s.quit
  | .TERMINATED => s.quit
  | _ => s

/-- The callback `get_monitored_sink_idx_cb`, with `i->index` and `eol`. -/
def get_monitored_sink_idx_cb (s : Session) (i_index : Nat) (eol : Int) (op_ok : Bool) :
    Session :=
  if eol ≠ 0 then s
  else if s.monitor.sink_idx ≠ PA_INVALID_INDEX then s
  else
    let s1 : Session := { s with monitor := { s.monitor with sink_idx := i_index } }
    let s2 := s1.issue (.get_sink_input_info_list .get_sink_input_idx_cb)
    if op_ok then s2.register .get_sink_input_idx_cb true
    else s2.quit

/-- The callback `get_sink_input_idx_cb`, with `i->index`, `i->sink` and `eol`. -/
def get_sink_input_idx_cb (s : Session) (i_index : Nat) (i_sink : Nat) (eol : Int)
    (op_ok : Bool) : Session :=
  if eol ≠ 0 then s
  else if s.monitor.sink_input_idx ≠ PA_INVALID_INDEX then s
  else if i_sink = s.monitor.sink_idx then
    let s1 : Session := { s with monitor := { s.monitor with sink_input_idx := i_index } }
    (s1.issue (.load_module "module-null-sink".toList
      ("sink_name=".toList ++ s1.monitor.virtual_sink_name ++
        " sink_properties=device.description=NullSink".toList)
      .create_virtual_sink_cb)).register .create_virtual_sink_cb op_ok
  else s

/-- The callback `create_virtual_sink_cb`, with the module index `idx`. -/
def create_virtual_sink_cb (s : Session) (idx : Nat) (op_ok : Bool) : Session :=
  if idx = PA_INVALID_INDEX then s
  else
    let s1 : Session := { s with monitor := { s.monitor with virtual_sink_module_idx := idx } }
    let s2 := s1.issue (.get_sink_info_by_name s1.monitor.virtual_sink_name .get_virtual_sink_idx_cb)
    if op_ok then s2.register .get_virtual_sink_idx_cb true
    else s2.quit

/-- The callback `get_virtual_sink_idx_cb`, with `i->index` and `eol`. -/
def get_virtual_sink_idx_cb (s : Session) (i_index : Nat) (eol : Int) (op_ok : Bool) :
    Session :=
  if eol ≠ 0 then s
  else
    let s1 : Session := { s with monitor := { s.monitor with virtual_sink_idx := i_index } }
    (s1.issue (.move_sink_input_by_index s1.monitor.sink_input_idx s1.monitor.virtual_sink_idx
      .redirect_sink_input_to_virtual_sink_cb)).register
      .redirect_sink_input_to_virtual_sink_cb op_ok

/-- The callback `redirect_sink_input_to_virtual_sink_cb`, with `success`. -/
def redirect_sink_input_to_virtual_sink_cb (s : Session) (success : Int) (op_ok : Bool) :
    Session :=
  if success < 0 then s
  else
    (s.issue (.get_sink_info_by_index s.monitor.virtual_sink_idx
      .get_virtual_sink_monitor_name_cb)).register .get_virtual_sink_monitor_name_cb op_ok

/-- The callback `get_virtual_sink_monitor_name_cb`, with `i->monitor_source_name`
and `eol`; the other arguments are what `pa_stream_new` and the two connect calls
return (a stream was created, the `int` result of the connect). -/
def get_virtual_sink_monitor_name_cb (s : Session) (monitor_source_name : List Char)
    (eol : Int) (record_stream_created : Bool) (connect_record : Int)
    (playback_stream_created : Bool) (connect_playback : Int) : Session :=
  if eol ≠ 0 then s
  else
    let s1 : Session :=
      { s with monitor := { s.monitor with
          virtual_sink_monitor_name := monitor_source_name
          record_stream := record_stream_created } }
    if !s1.monitor.record_stream then s1.quit
    else
      let s2 := s1.issue (.stream_connect_record s1.monitor.virtual_sink_monitor_name)
      if connect_record < 0 then s2.quit
      else
        let s3 := s2.register .stream_read_cb true
        let s4 : Session :=
          { s3 with monitor := { s3.monitor with playback_stream := playback_stream_created } }
        if !s4.monitor.playback_stream then s4.quit
        else
          let s5 := s4.issue (.stream_connect_playback s4.monitor.sink_name
            (RATE * CHANNELS * sizeof_DataType) (s4.monitor.delay_bytes % 4294967296))
          if connect_playback < 0 then s5.quit
          else s5

/-! ## The capture/playback bridge -/

/-- The factor `((float)PA_VOLUME_NORM / current_sink_volume) *
((float)PA_VOLUME_NORM / current_sink_input_volume)` of `stream_read_cb`, with the
`float` arithmetic taken as exact arithmetic on rationals. -/
def normalization_factor (m : PulseAudioMonitor) : ℚ :=
  ((PA_VOLUME_NORM : ℚ) / (m.current_sink_volume : ℚ)) *
    ((PA_VOLUME_NORM : ℚ) / (m.current_sink_input_volume : ℚ))

/-- The conversion of an integer to `int16_t`, keeping the low 16 bits. -/
def to_int16 (x : Int) : DataType :=
  (x + 32768) % 65536 - 32768

/-- The compound assignment `sample *= normalization_factor` on an `int16_t`: the
product is truncated towards zero and converted back to `int16_t`. -/
def scale_sample (x : DataType) (factor : ℚ) : DataType :=
  to_int16 (Int.tdiv ((x : ℚ) * factor).num (((x : ℚ) * factor).den : Int))

/-- The loop `for (std::size_t i = ...; i < 0; i++) data_queue[data_queue.size() + i]
*= normalization_factor`, started at `i`. The counter is a `size_t`, so the test
`i < 0` is a test on a natural number. -/
def normalize_loop (factor : ℚ) (i : Nat) (q : FixedDeque DataType) : FixedDeque DataType :=
  if h : i < 0 then
    let idx := (q.size + i) % SIZE_T_RANGE
    normalize_loop factor ((i + 1) % SIZE_T_RANGE)
      { q with dq_ := q.dq_.set idx (scale_sample (q.dq_.getD idx 0) factor) }
  else q
termination_by SIZE_T_RANGE - i
decreasing_by exact absurd h (Nat.not_lt_zero i)

/-- The callback `stream_read_cb`. `peek` is the block `pa_stream_peek` hands over
(`none` when it returns a negative value), as `int16_t` samples, so `length` is
`sizeof(DataType)` times their number; `write_result` is what `pa_stream_write`
returns; the last two arguments tell whether the two volume queries were
created. -/
def stream_read_cb (s : Session) (peek : Option (List DataType)) (write_result : Int)
    (sink_op_ok : Bool) (sink_input_op_ok : Bool) : Session :=
  match peek with
  | none => s.quit
  | some data =>
    let length := sizeof_DataType * data.length
    let s1 := s.issue (.stream_write data)
    if write_result < 0 then s1.quit
    else
      let s2 : Session :=
        { s1 with monitor := { s1.monitor with
            data_queue := s1.monitor.data_queue.insert s1.monitor.data_queue.size data } }
      let s3 := (s2.issue (.get_sink_info_by_index s2.monitor.sink_idx .get_sink_volume_cb)).register
        .get_sink_volume_cb sink_op_ok
      let s4 := (s3.issue (.get_sink_input_info s3.monitor.sink_input_idx
        .get_sink_input_volume_cb)).register .get_sink_input_volume_cb sink_input_op_ok
      let factor := normalization_factor s4.monitor
      let i := ((SIZE_T_RANGE - length % SIZE_T_RANGE) % SIZE_T_RANGE) / sizeof_DataType
      { s4 with monitor := { s4.monitor with
          data_queue := normalize_loop factor i s4.monitor.data_queue } }

/-- The callback `get_sink_volume_cb`, with `i->volume.values[0]` and `eol`. -/
def get_sink_volume_cb (s : Session) (volume : Nat) (eol : Int) : Session :=
  if eol ≠ 0 then s
  else { s with monitor := { s.monitor with current_sink_volume := volume } }

/-- The callback `get_sink_input_volume_cb`, with `i->volume.values[0]` and `eol`. -/
def get_sink_input_volume_cb (s : Session) (volume : Nat) (eol : Int) : Session :=
  if eol ≠ 0 then s
  else { s with monitor := { s.monitor with current_sink_input_volume := volume } }

/-! ## The event loop -/

/-- One delivery of a callback by the event loop, with the data libpulse passes and
the outcome of the calls the callback makes. -/
inductive Event where
  | context_state (state : ContextState) (op_ok : Bool)
  | monitored_sink_info (i_index : Nat) (eol : Int) (op_ok : Bool)
  | sink_input_info (i_index : Nat) (i_sink : Nat) (eol : Int) (op_ok : Bool)
  | module_loaded (idx : Nat) (op_ok : Bool)
  | virtual_sink_info (i_index : Nat) (eol : Int) (op_ok : Bool)
  | moved_to_virtual_sink (success : Int) (op_ok : Bool)
  | virtual_sink_monitor_name (name : List Char) (eol : Int) (record_stream_created : Bool)
      (connect_record : Int) (playback_stream_created : Bool) (connect_playback : Int)
  | stream_read (peek : Option (List DataType)) (write_result : Int) (sink_op_ok : Bool)
      (sink_input_op_ok : Bool)
  | sink_volume (volume : Nat) (eol : Int)
  | sink_input_volume (volume : Nat) (eol : Int)

/-- The callback an event runs. -/
def Event.callback : Event → Callback
  | .context_state _ _ => .context_state_cb
  | .monitored_sink_info _ _ _ => .get_monitored_sink_idx_cb
  | .sink_input_info _ _ _ _ => .get_sink_input_idx_cb
  | .module_loaded _ _ => .create_virtual_sink_cb
  | .virtual_sink_info _ _ _ => .get_virtual_sink_idx_cb
  | .moved_to_virtual_sink _ _ => .redirect_sink_input_to_virtual_sink_cb
  | .virtual_sink_monitor_name _ _ _ _ _ _ => .get_virtual_sink_monitor_name_cb
  | .stream_read _ _ _ _ => .stream_read_cb
  | .sink_volume _ _ => .get_sink_volume_cb
  | .sink_input_volume _ _ => .get_sink_input_volume_cb

/-- What the server guarantees about the data of an event: the index of a sink it
describes (`eol == 0`) is a real index, below `PA_INVALID_INDEX`. -/
def Event.well_formed : Event → Prop
  | .monitored_sink_info i_index eol _ => eol = 0 → i_index < PA_INVALID_INDEX
  | .virtual_sink_info i_index eol _ => eol = 0 → i_index < PA_INVALID_INDEX
  | _ => True

/-- The effect of an event on the session. -/
def deliver (s : Session) : Event → Session
  | .context_state state op_ok => context_state_cb s state op_ok
  | .monitored_sink_info i_index eol op_ok => get_monitored_sink_idx_cb s i_index eol op_ok
  | .sink_input_info i_index i_sink eol op_ok => get_sink_input_idx_cb s i_index i_sink eol op_ok
  | .module_loaded idx op_ok => create_virtual_sink_cb s idx op_ok
  | .virtual_sink_info i_index eol op_ok => get_virtual_sink_idx_cb s i_index eol op_ok
  | .moved_to_virtual_sink success op_ok => redirect_sink_input_to_virtual_sink_cb s success op_ok
  | .virtual_sink_monitor_name name eol r cr p cp =>
    get_virtual_sink_monitor_name_cb s name eol r cr p cp
  | .stream_read peek write_result o1 o2 => stream_read_cb s peek write_result o1 o2
  | .sink_volume volume eol => get_sink_volume_cb s volume eol
  | .sink_input_volume volume eol => get_sink_input_volume_cb s volume eol

/-- The sessions the program can be in: after the constructor, after an event whose
callback was registered before, and after a read of the consumer. -/
inductive Reachable : Session → Prop where
  | init (monitored_source_name : List Char) (delay_bytes : Nat) (random_string : List Char) :
    Reachable (PulseAudioMonitor.new monitored_source_name delay_bytes random_string)
  | step (s : Session) (ev : Event) :
    Reachable s → ev.callback ∈ s.pending → ev.well_formed → Reachable (deliver s ev)
  | read (s : Session) (length : Nat) (data : List DataType) :
    Reachable s → Reachable { s with monitor := (get_data s.monitor length data).1 }

/-! ## Frames, the sessions of the examples, and the invariant of the handshake -/

/-- The samples of a run of stereo frames, interleaved. -/
def interleave : List (DataType × DataType) → List DataType
  | [] => []
  | f :: fs => f.1 :: f.2 :: interleave fs

/-- The monitor of the examples: a buffer of capacity `RATE * CHANNELS * 20` that
holds the given samples. -/
def monitor_holding (samples : List DataType) : PulseAudioMonitor :=
  { data_queue := { dq_ := samples, max_size_ := RATE * CHANNELS * 20 } }

/-- The session of the examples: the members as the constructor leaves them for
`"dev.monitor"`, with the given samples in the buffer and the given cached
volumes. -/
def session_holding (samples : List DataType) (sink_volume sink_input_volume : Nat) :
    Session :=
  { monitor :=
      { (PulseAudioMonitor.new "dev.monitor".toList 17640 "a1B2c3D4".toList).monitor with
        data_queue := { dq_ := samples, max_size_ := RATE * CHANNELS * 20 }
        current_sink_volume := sink_volume
        current_sink_input_volume := sink_input_volume }
    pending := [Callback.stream_read_cb] }

/-- The session after the given events, delivered in order to the monitor
constructed for `"dev.monitor"`. -/
def session_after (events : List Event) : Session :=
  events.foldl deliver (PulseAudioMonitor.new "dev.monitor".toList 17640 "a1B2c3D4".toList)

/-- The events of a handshake up to the request to load the null sink: the context
is ready, the monitored sink has index 3, the sink input 7 plays on sink 3. -/
def events_until_load_module : List Event :=
  [.context_state .READY true, .monitored_sink_info 3 0 true, .sink_input_info 7 3 0 true]

/-- The events of a handshake up to the move onto the virtual sink: as before, then
the module is loaded with index 20 and the virtual sink has index 5. -/
def events_until_move : List Event :=
  events_until_load_module ++ [.module_loaded 20 true, .virtual_sink_info 5 0 true]

/-- What holds of a request of the trace: a `load_module` was made with `sink_idx`
resolved, and a move onto the virtual sink was made with `virtual_sink_idx`
resolved and as its target. -/
def Issued.in_order (e : Issued) : Prop :=
  (∀ name argument cb, e.request = .load_module name argument cb →
    e.sink_idx ≠ PA_INVALID_INDEX) ∧
  (∀ idx target, e.request
      = .move_sink_input_by_index idx target .redirect_sink_input_to_virtual_sink_cb →
    e.virtual_sink_idx ≠ PA_INVALID_INDEX ∧ target = e.virtual_sink_idx)

/-- The invariant of the event loop behind the order of the handshake. -/
def handshake_invariant (s : Session) : Prop :=
  (Callback.get_sink_input_idx_cb ∈ s.pending → s.monitor.sink_idx ≠ PA_INVALID_INDEX) ∧
  (∀ e ∈ s.trace, e.in_order)

/-! ## Teardown -/

/-- The states of `pa_operation_state_t`. -/
inductive OperationState where
  | RUNNING
  | DONE
  | CANCELLED
deriving DecidableEq

/-- The loop of `stop()` that waits for an operation, given the states
`pa_operation_get_state` returns at its successive iterations: on `RUNNING` the
thread waits for the next signal, on any other state the operation is released
and the loop is left. The result tells whether the loop is left; it is not when
the operation is still running after the last signal. -/
def wait_operation : List OperationState → Bool
  | [] => false
  | .RUNNING :: rest => wait_operation rest
  | _ :: _ => true

/-- The wait on the operation a request of `stop()` returned: `none` is a null
operation, on which `pa_operation_get_state` does not return. -/
def wait_for : Option (List OperationState) → Bool
  | none => false
  | some states => wait_operation states

/-- The block of `stop()` that destroys the streams: each stream that exists is
disconnected, released and its pointer reset. -/
def stop_streams (s : Session) : Session :=
  let s1 : Session :=
    if s.monitor.record_stream then
      { s.issue .stream_disconnect_record with
        monitor := { s.monitor with record_stream := false } }
    else s
  if s1.monitor.playback_stream then
    { s1.issue .stream_disconnect_playback with
      monitor := { s1.monitor with playback_stream := false } }
  else s1

/-- The block of `stop()` under `if (sink_input_idx != PA_INVALID_INDEX)`: the sink
input is moved to `sink_idx` and the thread waits for the operation. The result is
the session and whether the wait is left. -/
def stop_move_back (s : Session) (move_op : Option (List OperationState)) : Session × Bool :=
  if s.monitor.sink_input_idx ≠ PA_INVALID_INDEX then
    ((s.issue (.move_sink_input_by_index s.monitor.sink_input_idx s.monitor.sink_idx
      .redirect_sink_input_cb)).register .redirect_sink_input_cb move_op.isSome,
      wait_for move_op)
  else (s, true)

/-- The block of `stop()` under `if (virtual_sink_module_idx != PA_INVALID_INDEX)`:
the module is unloaded, `virtual_sink_module_idx` is reset and the thread waits for
the operation. -/
def stop_unload (s : Session) (unload_op : Option (List OperationState)) : Session × Bool :=
  if s.monitor.virtual_sink_module_idx ≠ PA_INVALID_INDEX then
    let s1 := (s.issue (.unload_module s.monitor.virtual_sink_module_idx
      .unload_module_cb)).register .unload_module_cb unload_op.isSome
    ({ s1 with monitor := { s1.monitor with virtual_sink_module_idx := PA_INVALID_INDEX } },
      wait_for unload_op)
  else (s, true)

/-- The block of `stop()` under `if (context)`: the move back, the unload, then the
context is disconnected, released and its pointer reset. A wait that is not left
keeps the thread where it is. -/
def stop_context (s : Session) (move_op unload_op : Option (List OperationState)) :
    Session × Bool :=
  let moved := stop_move_back s move_op
  if !moved.2 then moved
  else
    let unloaded := stop_unload moved.1 unload_op
    if !unloaded.2 then unloaded
    else
      ({ unloaded.1.issue .context_disconnect with
          monitor := { unloaded.1.monitor with context := false } }, true)

/-- The member `stop()`. `move_op` and `unload_op` are the operations the two
requests return, each as the states it goes through. The result is the session
where `stop()` returns, or where it stays blocked in a wait, and whether it
returned. -/
def stop (s : Session) (move_op unload_op : Option (List OperationState)) : Session × Bool :=
  if !s.monitor.mainloop then (s, true)
  else
    let s1 := stop_streams s
    let torn : Session × Bool :=
      if s1.monitor.context then stop_context s1 move_op unload_op else (s1, true)
    if !torn.2 then torn
    else ({ torn.1 with monitor := { torn.1.monitor with mainloop := false } }, true)

/-- What holds of a request `stop()` makes, given the values of `sink_input_idx`,
`sink_idx` and `virtual_sink_module_idx` when `stop()` is called: a move is the move
of that sink input to that sink, made when the sink input is resolved, and an
unload is the unload of that module, made when the module is resolved. -/
def Issued.teardown_ok (sink_input_idx sink_idx module_idx : Nat) (e : Issued) : Prop :=
  (∀ idx target cb, e.request = .move_sink_input_by_index idx target cb →
    cb = .redirect_sink_input_cb ∧ idx = sink_input_idx ∧ target = sink_idx ∧
      sink_input_idx ≠ PA_INVALID_INDEX) ∧
  (∀ idx cb, e.request = .unload_module idx cb →
    cb = .unload_module_cb ∧ idx = module_idx ∧ module_idx ≠ PA_INVALID_INDEX)

/-- The events of a whole handshake: after the move onto the virtual sink the server
reports success, the monitor source of the virtual sink is named, and both
streams are created and connected. -/
def events_of_handshake : List Event :=
  events_until_move ++
    [.moved_to_virtual_sink 1 true,
     .virtual_sink_monitor_name "null.monitor".toList 0 true 0 true 0]

/-! ## The enumeration of the sink inputs -/

/-- The fields of a `pa_sink_input_info` the program reads. -/
structure SinkInputInfo where
  index : Nat
  sink : Nat
deriving DecidableEq

/-- The answer of the server to `pa_context_get_sink_input_info_list`: one call of
`get_sink_input_idx_cb` per sink input, in order, with `eol == 0`, then a last call
with a null info and `eol` set to `last_eol`. -/
def enumerate_sink_inputs (s : Session) (entries : List SinkInputInfo) (op_ok : Bool)
    (last_eol : Int) : Session :=
  get_sink_input_idx_cb
    (entries.foldl (fun acc e => get_sink_input_idx_cb acc e.index e.sink 0 op_ok) s)
    0 0 last_eol op_ok

/-- The request `get_sink_input_idx_cb` makes for the sink input it selects. -/
def load_null_sink (s : Session) : Request :=
  .load_module "module-null-sink".toList
    ("sink_name=".toList ++ s.monitor.virtual_sink_name ++
      " sink_properties=device.description=NullSink".toList)
    .create_virtual_sink_cb

/-! ## Lemmas on the buffer -/

theorem interleave_length (frames : List (DataType × DataType)) :
    (interleave frames).length = 2 * frames.length := by
  induction frames with
  | nil => rfl
  | cons f fs ih => simp [interleave, ih]; omega

theorem push_of_pos {T : Type} (d : FixedDeque T) (v : T) (hpos : 1 ≤ d.max_size_)
    (hle : d.dq_.length ≤ d.max_size_) :
    d.push v = some { d with dq_ := (d.dq_ ++ [v]).drop ((d.dq_ ++ [v]).length - d.max_size_) } := by
  unfold FixedDeque.push
  by_cases hfull : d.dq_.length = d.max_size_
  · rw [if_pos hfull]
    cases hd : d.dq_ with
    | nil => rw [hd] at hfull; simp at hfull; omega
    | cons x rest =>
      rw [hd] at hfull
      simp only [List.length_cons] at hfull
      have h1 : (x :: rest ++ [v]).length - d.max_size_ = 1 := by
        simp only [List.length_append, List.length_cons, List.length_singleton, List.length_nil]
        omega
      rw [h1]
      simp
  · rw [if_neg hfull]
    have h0 : (d.dq_ ++ [v]).length - d.max_size_ = 0 := by
      simp only [List.length_append, List.length_singleton]
      omega
    rw [h0]
    simp

theorem drop_excess_append {T : Type} (C : Nat) (l r : List T) :
    ((l.drop (l.length - C)) ++ r).drop (((l.drop (l.length - C)) ++ r).length - C)
      = (l ++ r).drop ((l ++ r).length - C) := by
  have h1 : l.drop (l.length - C) ++ r = (l ++ r).drop (l.length - C) := by
    rw [List.drop_append_of_le_length (Nat.sub_le _ _)]
  rw [h1, List.drop_drop]
  congr 1
  simp only [List.length_drop, List.length_append]
  omega

theorem pushAll_of_pos {T : Type} (vs : List T) :
    ∀ d : FixedDeque T, 1 ≤ d.max_size_ → d.dq_.length ≤ d.max_size_ →
      d.pushAll vs
        = some { d with dq_ := (d.dq_ ++ vs).drop ((d.dq_ ++ vs).length - d.max_size_) } := by
  induction vs with
  | nil =>
    intro d _ hle
    have h0 : d.dq_.length - d.max_size_ = 0 := by omega
    simp [FixedDeque.pushAll, h0]
  | cons v vs ih =>
    intro d hpos hle
    rw [FixedDeque.pushAll, push_of_pos d v hpos hle]
    simp only [Option.some_bind]
    have hstep := ih
      { d with dq_ := (d.dq_ ++ [v]).drop ((d.dq_ ++ [v]).length - d.max_size_) } hpos
      (by simp only [List.length_drop]; omega)
    rw [hstep]
    simp only [drop_excess_append]
    simp

theorem get_data_of_lt (m : PulseAudioMonitor) (length : Nat) (data : List DataType)
    (h : m.data_queue.size < (length * CHANNELS) % SIZE_T_RANGE) :
    get_data m length data = (m, data) := by
  simp [get_data, h]

theorem get_data_of_ge (m : PulseAudioMonitor) (length : Nat) (data : List DataType)
    (h : (length * CHANNELS) % SIZE_T_RANGE ≤ m.data_queue.size) :
    get_data m length data
      = ({ m with data_queue :=
            { m.data_queue with
              dq_ := m.data_queue.dq_.drop ((length * CHANNELS) % SIZE_T_RANGE) } },
          data ++ m.data_queue.dq_.take ((length * CHANNELS) % SIZE_T_RANGE)) := by
  have h1 : ¬ m.data_queue.size < (length * CHANNELS) % SIZE_T_RANGE := Nat.not_lt.mpr h
  simp [get_data, h1, FixedDeque.erase]

/-! ## The bridge: what `stream_read_cb` leaves in the buffer -/

theorem normalize_loop_eq (factor : ℚ) (i : Nat) (q : FixedDeque DataType) :
    normalize_loop factor i q = q := by
  rw [normalize_loop]
  simp

theorem stream_read_cb_data_queue (s : Session) (data : List DataType) (write_result : Int)
    (sink_op_ok sink_input_op_ok : Bool) (hw : 0 ≤ write_result) :
    (stream_read_cb s (some data) write_result sink_op_ok sink_input_op_ok).monitor.data_queue
      = { s.monitor.data_queue with dq_ := s.monitor.data_queue.dq_ ++ data } := by
  have hw1 : ¬ write_result < 0 := not_lt.mpr hw
  simp only [stream_read_cb, hw1, if_false, normalize_loop_eq]
  cases sink_op_ok <;> cases sink_input_op_ok <;>
    simp [Session.issue, Session.register, FixedDeque.insert, FixedDeque.size]

/-! ## C1: the capacity of the buffer across the append of the bridge -/

/-- C1, at the failing input: the buffer of the monitor, capacity 1,764,000, holds
1,764,000 samples and a block of two samples is captured. After `stream_read_cb` the
buffer holds 1,764,002 samples, above the capacity, and its front is the sample
that was the oldest before: nothing was evicted. -/
theorem stream_read_cb_exceeds_capacity :
    (session_holding (3 :: List.replicate 1763999 0) PA_VOLUME_NORM PA_VOLUME_NORM).monitor.data_queue.max_size_
      = 1764000 ∧
    (session_holding (3 :: List.replicate 1763999 0) PA_VOLUME_NORM PA_VOLUME_NORM).monitor.data_queue.size
      = 1764000 ∧
    (stream_read_cb (session_holding (3 :: List.replicate 1763999 0) PA_VOLUME_NORM PA_VOLUME_NORM)
      (some [1, 2]) 0 true true).monitor.data_queue.max_size_ = 1764000 ∧
    (stream_read_cb (session_holding (3 :: List.replicate 1763999 0) PA_VOLUME_NORM PA_VOLUME_NORM)
      (some [1, 2]) 0 true true).monitor.data_queue.size = 1764002 ∧
    (stream_read_cb (session_holding (3 :: List.replicate 1763999 0) PA_VOLUME_NORM PA_VOLUME_NORM)
      (some [1, 2]) 0 true true).monitor.data_queue.dq_.head? = some 3 := by
  rw [stream_read_cb_data_queue _ _ _ _ _ (le_refl 0)]
  refine ⟨by decide, ?_, by decide, ?_, ?_⟩
  · show (3 :: List.replicate 1763999 (0 : DataType)).length = 1764000
    rw [List.length_cons, List.length_replicate]
  · show ((3 :: List.replicate 1763999 (0 : DataType)) ++ [1, 2]).length = 1764002
    rw [List.length_append, List.length_cons, List.length_replicate]
    rfl
  · rfl

/-! ## C2: the length of what `get_data` returns -/

theorem monitor_holding_size (samples : List DataType) :
    (monitor_holding samples).data_queue.size = samples.length :=
  rfl

/-- C2: for every `n_frames` and every buffer, `get_data(n_frames, out)` called with an
empty `out` leaves `out` with length 0 or exactly `n_frames × 2`, the product being
the `size_t` product `n_frames * CHANNELS` the code computes, reduced modulo
`2 ^ 64`. Whenever `n_frames < 2 ^ 63` the product does not wrap and the length is 0
or `n_frames × 2` as a natural number, in particular for every non-negative `int`
the binding passes. -/
theorem get_data_length (m : PulseAudioMonitor) (n_frames : Nat) :
    ((get_data m n_frames []).2.length = 0 ∨
      (get_data m n_frames []).2.length = (n_frames * CHANNELS) % SIZE_T_RANGE) ∧
    (n_frames < 9223372036854775808 →
      ((get_data m n_frames []).2.length = 0 ∨
        (get_data m n_frames []).2.length = n_frames * 2)) ∧
    (n_frames < 2147483648 →
      ((ext_get_data m (n_frames : Int)).2.length = 0 ∨
        (ext_get_data m (n_frames : Int)).2.length = n_frames * 2)) := by
  have key : (get_data m n_frames []).2.length = 0 ∨
      (get_data m n_frames []).2.length = (n_frames * CHANNELS) % SIZE_T_RANGE := by
    by_cases h : m.data_queue.size < (n_frames * CHANNELS) % SIZE_T_RANGE
    · left
      rw [get_data_of_lt m n_frames [] h]
      rfl
    · right
      rw [get_data_of_ge m n_frames [] (Nat.not_lt.mp h)]
      simp only [List.nil_append, List.length_take]
      simp only [FixedDeque.size] at h
      omega
  have small : n_frames < 9223372036854775808 →
      ((get_data m n_frames []).2.length = 0 ∨
        (get_data m n_frames []).2.length = n_frames * 2) := by
    intro hn
    have hmod : (n_frames * CHANNELS) % SIZE_T_RANGE = n_frames * 2 := by
      simp only [CHANNELS]
      apply Nat.mod_eq_of_lt
      simp only [SIZE_T_RANGE]
      omega
    rw [hmod] at key
    exact key
  refine ⟨key, small, fun hn => ?_⟩
  have hconv : ((n_frames : Int) % (SIZE_T_RANGE : Int)).toNat = n_frames := by
    simp only [SIZE_T_RANGE]
    omega
  unfold ext_get_data
  rw [hconv]
  exact small (by omega)

/-- C2 at two inputs. With 1000 frames asked from a buffer of 2000 samples the length
is 0 or 2000. With `n_frames = 2 ^ 63 + 1` the `size_t` product is 2, and on a buffer
of two samples the length is 2. -/
theorem get_data_length_witness :
    (1000 : Nat) < 9223372036854775808 ∧
    ((get_data (monitor_holding (List.replicate 2000 7)) 1000 []).2.length = 0 ∨
      (get_data (monitor_holding (List.replicate 2000 7)) 1000 []).2.length = 1000 * 2) ∧
    (9223372036854775809 * CHANNELS) % SIZE_T_RANGE = 2 ∧
    ((get_data (monitor_holding [1, 2]) 9223372036854775809 []).2.length = 0 ∨
      (get_data (monitor_holding [1, 2]) 9223372036854775809 []).2.length
        = (9223372036854775809 * CHANNELS) % SIZE_T_RANGE) :=
  ⟨by decide, (get_data_length (monitor_holding (List.replicate 2000 7)) 1000).2.1 (by decide),
    by decide, (get_data_length (monitor_holding [1, 2]) 9223372036854775809).1⟩

/-! ## C3: a read that succeeds -/

/-- C3: when the buffer holds at least `n_frames × 2` samples (its size being a
`size_t`), `get_data(n_frames, out)` on an empty `out` yields exactly the
`n_frames × 2` oldest samples in order, leaves the remaining samples in order in
the buffer, and `queue_length()` drops by `n_frames × 2`. -/
theorem get_data_fifo (m : PulseAudioMonitor) (n_frames : Nat)
    (hsize : m.data_queue.size < SIZE_T_RANGE)
    (h : n_frames * 2 ≤ m.data_queue.size) :
    (get_data m n_frames []).2 = m.data_queue.dq_.take (n_frames * 2) ∧
    (get_data m n_frames []).2.length = n_frames * 2 ∧
    (get_data m n_frames []).1.data_queue.dq_ = m.data_queue.dq_.drop (n_frames * 2) ∧
    (get_data m n_frames []).2 ++ (get_data m n_frames []).1.data_queue.dq_ = m.data_queue.dq_ ∧
    queue_length (get_data m n_frames []).1 = queue_length m - n_frames * 2 := by
  have hmod : (n_frames * CHANNELS) % SIZE_T_RANGE = n_frames * 2 := by
    simp only [CHANNELS]
    exact Nat.mod_eq_of_lt (by omega)
  have hge : (n_frames * CHANNELS) % SIZE_T_RANGE ≤ m.data_queue.size := by omega
  rw [get_data_of_ge m n_frames [] hge, hmod]
  simp only [FixedDeque.size] at h
  refine ⟨by simp, ?_, rfl, by simp, ?_⟩
  · simp only [List.nil_append, List.length_take]
    omega
  · simp [queue_length, FixedDeque.size]

/-- C3 at the scenario of the specification: 44100×2 samples in the buffer,
`get_data(1000)` gives 2000 samples and `queue_length()` then gives
`44100*2 - 2000`. -/
theorem get_data_fifo_witness :
    (get_data (monitor_holding (List.replicate (44100 * 2) 0)) 1000 []).2.length = 2000 ∧
    queue_length (get_data (monitor_holding (List.replicate (44100 * 2) 0)) 1000 []).1
      = 44100 * 2 - 2000 := by
  have h := get_data_fifo (monitor_holding (List.replicate (44100 * 2) 0)) 1000
    (by rw [monitor_holding_size, List.length_replicate]; decide)
    (by rw [monitor_holding_size, List.length_replicate]; decide)
  refine ⟨h.2.1, ?_⟩
  rw [h.2.2.2.2, queue_length, monitor_holding_size, List.length_replicate]

/-! ## C4: a read that finds too little -/

/-- C4, the claim as stated fails: with `n_frames = 2 ^ 63 + 2` the `size_t` product
`n_frames * CHANNELS` is 4, so a buffer of five samples, fewer than `n_frames × 2`,
passes the test, and `get_data` copies four samples out and removes them. -/
theorem get_data_consumes_when_product_wraps :
    9223372036854775810 < SIZE_T_RANGE ∧
    (monitor_holding [1, 2, 3, 4, 5]).data_queue.size < 9223372036854775810 * 2 ∧
    (get_data (monitor_holding [1, 2, 3, 4, 5]) 9223372036854775810 []).2 = [1, 2, 3, 4] ∧
    (get_data (monitor_holding [1, 2, 3, 4, 5]) 9223372036854775810 []).1.data_queue.dq_ = [5] ∧
    queue_length (get_data (monitor_holding [1, 2, 3, 4, 5]) 9223372036854775810 []).1 = 1 := by
  decide

/-- C4, amended: for every `n_frames` and every buffer holding fewer than
`n_frames × 2` reduced modulo `2 ^ 64` samples (fewer than `n_frames × 2` whenever
`n_frames < 2 ^ 63`), `get_data(n_frames, out)` leaves `out`, the contents of the
buffer and `queue_length()` unchanged. -/
theorem get_data_all_or_nothing (m : PulseAudioMonitor) (n_frames : Nat)
    (out : List DataType) :
    (m.data_queue.size < (n_frames * 2) % SIZE_T_RANGE →
      get_data m n_frames out = (m, out)) ∧
    (n_frames < 9223372036854775808 → m.data_queue.size < n_frames * 2 →
      (get_data m n_frames out).2 = out ∧
      (get_data m n_frames out).1 = m ∧
      queue_length (get_data m n_frames out).1 = queue_length m) := by
  have key : m.data_queue.size < (n_frames * 2) % SIZE_T_RANGE →
      get_data m n_frames out = (m, out) := fun h => get_data_of_lt m n_frames out h
  refine ⟨key, fun hn hlt => ?_⟩
  have hmod : (n_frames * 2) % SIZE_T_RANGE = n_frames * 2 := by
    apply Nat.mod_eq_of_lt
    simp only [SIZE_T_RANGE]
    omega
  rw [key (by rw [hmod]; exact hlt)]
  exact ⟨rfl, rfl, rfl⟩

/-- C4, amended, at an input: 3 frames asked from a buffer of 5 samples, with
something already in `out`. -/
theorem get_data_all_or_nothing_witness :
    (3 : Nat) < 9223372036854775808 ∧
    (monitor_holding [1, 2, 3, 4, 5]).data_queue.size < 3 * 2 ∧
    (get_data (monitor_holding [1, 2, 3, 4, 5]) 3 [9]).2 = [9] ∧
    (get_data (monitor_holding [1, 2, 3, 4, 5]) 3 [9]).1 = monitor_holding [1, 2, 3, 4, 5] ∧
    queue_length (get_data (monitor_holding [1, 2, 3, 4, 5]) 3 [9]).1
      = queue_length (monitor_holding [1, 2, 3, 4, 5]) :=
  ⟨by decide, by decide,
    (get_data_all_or_nothing (monitor_holding [1, 2, 3, 4, 5]) 3 [9]).2
      (by decide) (by decide)⟩

/-! ## C5: pushing frames and reading them back -/

/-- C5: for frames `f1..fk` with `2k` no more than the capacity (a `size_t`), pushing
their samples in order with `FixedDeque::push` onto the empty buffer succeeds, and
`get_data(k, out)` on an empty `out` then yields the samples of `f1..fk` in the same
order and leaves `queue_length()` at 0. -/
theorem push_then_get_data_round_trip (m : PulseAudioMonitor)
    (frames : List (DataType × DataType))
    (hempty : m.data_queue.dq_ = [])
    (hcap : 2 * frames.length ≤ m.data_queue.max_size_)
    (hsize : m.data_queue.max_size_ < SIZE_T_RANGE) :
    ∃ d : FixedDeque DataType,
      m.data_queue.pushAll (interleave frames) = some d ∧
      d.dq_ = interleave frames ∧
      (get_data { m with data_queue := d } frames.length []).2 = interleave frames ∧
      (get_data { m with data_queue := d } frames.length []).1.data_queue.dq_ = [] ∧
      queue_length (get_data { m with data_queue := d } frames.length []).1 = 0 := by
  have hlen := interleave_length frames
  cases frames with
  | nil =>
    refine ⟨m.data_queue, rfl, ?_, ?_, ?_, ?_⟩
    · simpa [interleave] using hempty
    · simp [get_data, FixedDeque.size, FixedDeque.erase, hempty, CHANNELS, SIZE_T_RANGE,
        interleave]
    · simp [get_data, FixedDeque.size, FixedDeque.erase, hempty, CHANNELS, SIZE_T_RANGE]
    · simp [get_data, queue_length, FixedDeque.size, FixedDeque.erase, hempty, CHANNELS,
        SIZE_T_RANGE]
  | cons f fs =>
    have hpos : 1 ≤ m.data_queue.max_size_ := by
      simp only [List.length_cons] at hcap
      omega
    have hpush := pushAll_of_pos (interleave (f :: fs)) m.data_queue hpos
      (by rw [hempty]; exact Nat.zero_le _)
    have hdrop : (m.data_queue.dq_ ++ interleave (f :: fs)).length - m.data_queue.max_size_ = 0 := by
      rw [hempty, List.nil_append, hlen]
      omega
    rw [hdrop, hempty, List.nil_append, List.drop_zero] at hpush
    refine ⟨_, hpush, rfl, ?_⟩
    have hbound : (f :: fs).length * 2 < SIZE_T_RANGE := by omega
    have hmod : ((f :: fs).length * CHANNELS) % SIZE_T_RANGE = (interleave (f :: fs)).length := by
      rw [hlen]
      simp only [CHANNELS]
      rw [Nat.mod_eq_of_lt hbound]
      omega
    have hget := get_data_of_ge
      { m with data_queue := { m.data_queue with dq_ := interleave (f :: fs) } }
      (f :: fs).length [] (by rw [hmod]; exact le_refl _)
    rw [hget, hmod]
    simp [queue_length, FixedDeque.size]

/-- C5 at an input: two frames pushed onto the empty buffer of the monitor, two
frames read back. -/
theorem push_then_get_data_round_trip_witness :
    ∃ d : FixedDeque DataType,
      (monitor_holding []).data_queue.pushAll (interleave [(1, 2), (3, 4)]) = some d ∧
      d.dq_ = interleave [(1, 2), (3, 4)] ∧
      (get_data { monitor_holding [] with data_queue := d } 2 []).2
        = interleave [(1, 2), (3, 4)] ∧
      (get_data { monitor_holding [] with data_queue := d } 2 []).1.data_queue.dq_ = [] ∧
      queue_length (get_data { monitor_holding [] with data_queue := d } 2 []).1 = 0 :=
  push_then_get_data_round_trip (monitor_holding []) [(1, 2), (3, 4)] rfl (by decide)
    (by decide)

/-! ## C6: what a run of pushes retains -/

/-- C6, the claim as stated fails at capacity 0: the first `push` finds
`dq_.size() == max_size_` on an empty deque and calls `pop_front` on it, which has
no defined behaviour, so no buffer with occupancy `min(0, 1)` results. -/
theorem push_on_zero_capacity_undefined :
    (FixedDeque.new 0 : FixedDeque DataType).pushAll [5] = none ∧
    ¬ ∃ d : FixedDeque DataType,
      (FixedDeque.new 0 : FixedDeque DataType).pushAll [5] = some d ∧
      d.size = min 0 ([5] : List DataType).length := by
  decide

/-- C6, amended: for every capacity `C ≥ 1` and every run of `FixedDeque::push` calls
on the empty buffer, the run succeeds, the occupancy after it is
`min(C, total_pushed)`, and the entries retained are exactly the most recent
`min(C, total_pushed)` values pushed, in their original order. -/
theorem pushAll_retains_most_recent {T : Type} (C : Nat) (values : List T) (hC : 1 ≤ C) :
    ∃ d : FixedDeque T,
      (FixedDeque.new C : FixedDeque T).pushAll values = some d ∧
      d.max_size_ = C ∧
      d.size = min C values.length ∧
      d.dq_ = values.drop (values.length - min C values.length) := by
  have h := pushAll_of_pos values (FixedDeque.new C : FixedDeque T) hC (Nat.zero_le _)
  simp only [FixedDeque.new, List.nil_append] at h
  refine ⟨_, h, rfl, ?_, ?_⟩
  · simp only [FixedDeque.size, List.length_drop]
    omega
  · show values.drop (values.length - C) = values.drop (values.length - min C values.length)
    congr 1
    omega

/-- C6, amended, at an input: five values pushed into a buffer of capacity 3. -/
theorem pushAll_retains_most_recent_witness :
    ∃ d : FixedDeque DataType,
      (FixedDeque.new 3 : FixedDeque DataType).pushAll [1, 2, 3, 4, 5] = some d ∧
      d.max_size_ = 3 ∧
      d.size = min 3 ([1, 2, 3, 4, 5] : List DataType).length ∧
      d.dq_ = ([1, 2, 3, 4, 5] : List DataType).drop
        (([1, 2, 3, 4, 5] : List DataType).length - min 3 ([1, 2, 3, 4, 5] : List DataType).length) :=
  pushAll_retains_most_recent 3 [1, 2, 3, 4, 5] (by decide)

/-! ## C7: the gain applied to the appended span -/

theorem scale_sample_two (x : Int) : scale_sample x 2 = to_int16 (x * 2) := by
  unfold scale_sample
  have h : ((x : ℚ) * 2) = ((x * 2 : Int) : ℚ) := by push_cast; ring
  rw [h, Rat.intCast_num, Rat.intCast_den]
  simp

/-- C7, at the failing input: the cached sink volume is half of `PA_VOLUME_NORM`, the
cached volume of the sink input is `PA_VOLUME_NORM`, the buffer holds one sample
and the block `[100, 200]` is captured. The factor is 2 and the samples scaled by
it are 200 and 400, yet `stream_read_cb` leaves 100 and 200 in the appended span:
the loop that scales it tests `i < 0` on a `size_t` and never runs. The sample
that was in the buffer before is unchanged. -/
theorem stream_read_cb_leaves_span_unscaled :
    normalization_factor (session_holding [5] 32768 PA_VOLUME_NORM).monitor = 2 ∧
    scale_sample 100 2 = 200 ∧
    scale_sample 200 2 = 400 ∧
    (stream_read_cb (session_holding [5] 32768 PA_VOLUME_NORM) (some [100, 200]) 0 true
      true).monitor.data_queue.dq_ = [5, 100, 200] := by
  refine ⟨?_, ?_, ?_, ?_⟩
  · simp only [normalization_factor, session_holding, PA_VOLUME_NORM]
    norm_num
  · rw [scale_sample_two]
    decide
  · rw [scale_sample_two]
    decide
  · rw [stream_read_cb_data_queue _ _ _ _ _ (le_refl 0)]
    rfl

/-! ## C8: the name the constructor accepts -/

theorem string_find_some (pat : List Char) :
    ∀ (s : List Char) (p : Nat), string_find pat s = some p →
      (∃ rest, s = s.take p ++ pat ++ rest) ∧
      ∀ a b, s = a ++ pat ++ b → p ≤ a.length := by
  intro s
  induction s with
  | nil =>
    intro p h
    unfold string_find at h
    split at h
    · rename_i hp
      injection h with h
      subst h
      obtain ⟨t, ht⟩ := List.isPrefixOf_iff_prefix.mp hp
      exact ⟨⟨t, by simp [ht]⟩, fun _ _ _ => Nat.zero_le _⟩
    · cases h
  | cons c cs ih =>
    intro p h
    unfold string_find at h
    split at h
    · rename_i hp
      injection h with h
      subst h
      obtain ⟨t, ht⟩ := List.isPrefixOf_iff_prefix.mp hp
      exact ⟨⟨t, by simp [ht]⟩, fun _ _ _ => Nat.zero_le _⟩
    · rename_i hp
      cases hq : string_find pat cs with
      | none => rw [hq] at h; cases h
      | some q =>
        rw [hq] at h
        simp only [Option.map_some', Option.some.injEq] at h
        subst h
        obtain ⟨⟨rest, hrest⟩, hmin⟩ := ih q hq
        refine ⟨⟨rest, ?_⟩, ?_⟩
        · simp only [List.take_succ_cons, List.cons_append]
          rw [← List.cons_append, ← List.cons_append]
          simp only [List.cons_append]
          congr 1
        · intro a b hab
          cases a with
          | nil =>
            exfalso
            apply hp
            exact List.isPrefixOf_iff_prefix.mpr ⟨b, by simpa using hab.symm⟩
          | cons a0 a1 =>
            simp only [List.cons_append, List.cons.injEq] at hab
            have := hmin a1 b hab.2
            simp only [List.length_cons]
            omega

theorem string_find_none (pat : List Char) :
    ∀ (s : List Char), string_find pat s = none → ∀ a b, s ≠ a ++ pat ++ b := by
  intro s
  induction s with
  | nil =>
    intro h a b hab
    unfold string_find at h
    split at h
    · cases h
    · rename_i hp
      apply hp
      have h1 : a = [] := by
        cases a with
        | nil => rfl
        | cons _ _ => simp at hab
      subst h1
      exact List.isPrefixOf_iff_prefix.mpr ⟨b, by simpa using hab.symm⟩
  | cons c cs ih =>
    intro h a b hab
    unfold string_find at h
    split at h
    · cases h
    · rename_i hp
      cases hq : string_find pat cs with
      | some q => rw [hq] at h; simp at h
      | none =>
        cases a with
        | nil =>
          apply hp
          exact List.isPrefixOf_iff_prefix.mpr ⟨b, by simpa using hab.symm⟩
        | cons a0 a1 =>
          simp only [List.cons_append, List.cons.injEq] at hab
          exact ih hq a1 b hab.2

theorem new_of_none (name : List Char) (delay_bytes : Nat) (random_string : List Char)
    (h : string_find monitor_suffix name = none) :
    PulseAudioMonitor.new name delay_bytes random_string
      = { monitor := { monitored_source_name := name, delay_bytes := delay_bytes } } := by
  simp only [PulseAudioMonitor.new, h]

theorem new_of_some (name : List Char) (delay_bytes : Nat) (random_string : List Char)
    (pos : Nat) (h : string_find monitor_suffix name = some pos) :
    (PulseAudioMonitor.new name delay_bytes random_string).monitor.mainloop = true ∧
    (PulseAudioMonitor.new name delay_bytes random_string).monitor.context = true ∧
    (PulseAudioMonitor.new name delay_bytes random_string).monitor.sink_name = name.take pos := by
  simp only [PulseAudioMonitor.new, h, and_self]

/-- C8, the claim as stated fails: `"a.monitor.b"` does not end with `".monitor"` and
is accepted (mainloop and context are created, `sink_name` is `"a"`); and
`"x.monitor.monitor"` ends with `".monitor"` but its `sink_name` is `"x"`, not the
input with the suffix stripped. -/
theorem constructor_accepts_inner_occurrence :
    ¬ (monitor_suffix <:+ "a.monitor.b".toList) ∧
    (PulseAudioMonitor.new "a.monitor.b".toList 17640 "a1B2c3D4".toList).monitor.mainloop = true ∧
    (PulseAudioMonitor.new "a.monitor.b".toList 17640 "a1B2c3D4".toList).monitor.context = true ∧
    (PulseAudioMonitor.new "a.monitor.b".toList 17640 "a1B2c3D4".toList).monitor.sink_name
      = "a".toList ∧
    monitor_suffix <:+ "x.monitor.monitor".toList ∧
    (PulseAudioMonitor.new "x.monitor.monitor".toList 17640 "a1B2c3D4".toList).monitor.sink_name
      = "x".toList ∧
    "x.monitor.monitor".toList
      ≠ (PulseAudioMonitor.new "x.monitor.monitor".toList 17640 "a1B2c3D4".toList).monitor.sink_name
        ++ monitor_suffix := by
  decide

/-- C8, amended: the constructor accepts `monitored_source_name` (it creates the
mainloop and the context) if and only if the name contains `".monitor"`, so every
name that ends with it is accepted; when accepted, `sink_name` is the input cut at
the first occurrence of `".monitor"` (input = sink_name ++ ".monitor" ++ rest, and
input = sink_name ++ ".monitor" when the final suffix is the only occurrence); when
`".monitor"` is absent it fails fast: no mainloop, no context, no request. -/
theorem constructor_accepts_iff_contains (name : List Char) (delay_bytes : Nat)
    (random_string : List Char) :
    ((PulseAudioMonitor.new name delay_bytes random_string).monitor.mainloop = true ↔
      ∃ a b, name = a ++ monitor_suffix ++ b) ∧
    (monitor_suffix <:+ name →
      (PulseAudioMonitor.new name delay_bytes random_string).monitor.mainloop = true ∧
      (PulseAudioMonitor.new name delay_bytes random_string).monitor.context = true) ∧
    ((PulseAudioMonitor.new name delay_bytes random_string).monitor.mainloop = true →
      (PulseAudioMonitor.new name delay_bytes random_string).monitor.context = true ∧
      (∃ rest, name
        = (PulseAudioMonitor.new name delay_bytes random_string).monitor.sink_name
          ++ monitor_suffix ++ rest) ∧
      (∀ a b, name = a ++ monitor_suffix ++ b →
        (PulseAudioMonitor.new name delay_bytes random_string).monitor.sink_name.length
          ≤ a.length) ∧
      (∀ x, name = x ++ monitor_suffix →
        (∀ a b, name = a ++ monitor_suffix ++ b → a = x) →
        (PulseAudioMonitor.new name delay_bytes random_string).monitor.sink_name = x)) ∧
    ((¬ ∃ a b, name = a ++ monitor_suffix ++ b) →
      (PulseAudioMonitor.new name delay_bytes random_string).monitor.mainloop = false ∧
      (PulseAudioMonitor.new name delay_bytes random_string).monitor.context = false ∧
      (PulseAudioMonitor.new name delay_bytes random_string).trace = [] ∧
      (PulseAudioMonitor.new name delay_bytes random_string).pending = []) := by
  cases hfind : string_find monitor_suffix name with
  | none =>
    have hnone := string_find_none monitor_suffix name hfind
    have hnew := new_of_none name delay_bytes random_string hfind
    have hno : ¬ ∃ a b, name = a ++ monitor_suffix ++ b := by
      rintro ⟨a, b, hab⟩
      exact hnone a b hab
    rw [hnew]
    refine ⟨⟨fun h => by simp at h, fun h => absurd h hno⟩, ?_, fun h => by simp at h, ?_⟩
    · rintro ⟨t, ht⟩
      exact absurd ⟨t, [], by simp [ht]⟩ hno
    · intro _
      exact ⟨rfl, rfl, rfl, rfl⟩
  | some pos =>
    obtain ⟨⟨rest, hrest⟩, hmin⟩ := string_find_some monitor_suffix name pos hfind
    obtain ⟨hloop, hctx, hsink⟩ := new_of_some name delay_bytes random_string pos hfind
    have hyes : ∃ a b, name = a ++ monitor_suffix ++ b := ⟨name.take pos, rest, hrest⟩
    have hdecomp : ∃ rest, name
        = (PulseAudioMonitor.new name delay_bytes random_string).monitor.sink_name
          ++ monitor_suffix ++ rest := ⟨rest, by rw [hsink]; exact hrest⟩
    refine ⟨⟨fun _ => hyes, fun _ => hloop⟩, fun _ => ⟨hloop, hctx⟩, fun _ => ⟨hctx, hdecomp, ?_, ?_⟩,
      fun h => absurd hyes h⟩
    · intro a b hab
      rw [hsink, List.length_take]
      have := hmin a b hab
      omega
    · intro x _ huniq
      obtain ⟨r, hr⟩ := hdecomp
      exact huniq _ r hr

/-- C8, amended, at an input: `"dev.monitor"` is accepted and its `sink_name` is
`"dev"`. -/
theorem constructor_accepts_iff_contains_witness :
    monitor_suffix <:+ "dev.monitor".toList ∧
    (PulseAudioMonitor.new "dev.monitor".toList 17640 "a1B2c3D4".toList).monitor.mainloop = true ∧
    (PulseAudioMonitor.new "dev.monitor".toList 17640 "a1B2c3D4".toList).monitor.context = true ∧
    (PulseAudioMonitor.new "dev.monitor".toList 17640 "a1B2c3D4".toList).monitor.sink_name
      = "dev".toList :=
  ⟨by decide,
    ((constructor_accepts_iff_contains "dev.monitor".toList 17640 "a1B2c3D4".toList).2.1
      (by decide)).1,
    ((constructor_accepts_iff_contains "dev.monitor".toList 17640 "a1B2c3D4".toList).2.1
      (by decide)).2,
    by decide⟩

/-! ## C9: what a handler does when its step failed -/

/-- C9, at the failing inputs. With the load of the null sink requested,
`create_virtual_sink_cb` called with `PA_INVALID_INDEX` returns without calling
`mainloop_api->quit`. With the move onto the virtual sink requested,
`redirect_sink_input_to_virtual_sink_cb` called with `success == 0` does not call
`mainloop_api->quit` either, and goes on to the next request of the handshake,
`pa_context_get_sink_info_by_index` on the virtual sink. -/
theorem setup_failure_not_signalled :
    Callback.create_virtual_sink_cb ∈ (session_after events_until_load_module).pending ∧
    (create_virtual_sink_cb (session_after events_until_load_module) PA_INVALID_INDEX
      true).quit_called = false ∧
    (create_virtual_sink_cb (session_after events_until_load_module) PA_INVALID_INDEX
      true).trace = (session_after events_until_load_module).trace ∧
    Callback.redirect_sink_input_to_virtual_sink_cb
      ∈ (session_after events_until_move).pending ∧
    (redirect_sink_input_to_virtual_sink_cb (session_after events_until_move) 0
      true).quit_called = false ∧
    (redirect_sink_input_to_virtual_sink_cb (session_after events_until_move) 0 true).trace
      = (session_after events_until_move).trace ++
        [⟨.get_sink_info_by_index 5 .get_virtual_sink_monitor_name_cb, 3, 5⟩] := by
  decide

/-! ## C10: the order of the handshake -/

theorem handshake_invariant_new (name : List Char) (delay_bytes : Nat)
    (random_string : List Char) :
    handshake_invariant (PulseAudioMonitor.new name delay_bytes random_string) := by
  cases h : string_find monitor_suffix name <;>
    simp [PulseAudioMonitor.new, h, handshake_invariant, Issued.in_order]

theorem handshake_invariant_issue (s : Session) (r : Request)
    (hinv : handshake_invariant s)
    (hr : (⟨r, s.monitor.sink_idx, s.monitor.virtual_sink_idx⟩ : Issued).in_order) :
    handshake_invariant (s.issue r) := by
  refine ⟨hinv.1, ?_⟩
  intro e he
  simp only [Session.issue, List.mem_append, List.mem_singleton] at he
  rcases he with he | he
  · exact hinv.2 e he
  · rw [he]
    exact hr

theorem handshake_invariant_register (s : Session) (cb : Callback) (ok : Bool)
    (hinv : handshake_invariant s)
    (hcb : cb = Callback.get_sink_input_idx_cb → s.monitor.sink_idx ≠ PA_INVALID_INDEX) :
    handshake_invariant (s.register cb ok) := by
  cases ok
  · exact hinv
  · refine ⟨?_, hinv.2⟩
    intro hmem
    simp only [Session.register, if_true, List.mem_cons] at hmem
    rcases hmem with hmem | hmem
    · exact hcb hmem.symm
    · exact hinv.1 hmem

theorem handshake_invariant_quit (s : Session) (hinv : handshake_invariant s) :
    handshake_invariant s.quit :=
  hinv

theorem handshake_invariant_monitor (s : Session) (m : PulseAudioMonitor)
    (hinv : handshake_invariant s)
    (hm : s.monitor.sink_idx ≠ PA_INVALID_INDEX → m.sink_idx ≠ PA_INVALID_INDEX) :
    handshake_invariant { s with monitor := m } :=
  ⟨fun h => hm (hinv.1 h), hinv.2⟩

theorem in_order_of_other (r : Request) (a b : Nat)
    (h1 : ∀ name argument cb, r ≠ .load_module name argument cb)
    (h2 : ∀ idx target cb, r ≠ .move_sink_input_by_index idx target cb) :
    (⟨r, a, b⟩ : Issued).in_order :=
  ⟨fun name argument cb h => absurd h (h1 name argument cb),
    fun idx target h => absurd h (h2 idx target _)⟩

theorem handshake_invariant_deliver (s : Session) (ev : Event)
    (hinv : handshake_invariant s) (hp : ev.callback ∈ s.pending) (hwf : ev.well_formed) :
    handshake_invariant (deliver s ev) := by
  cases ev with
  | context_state state op_ok =>
    simp only [deliver, context_state_cb]
    cases state
    case READY =>
      apply handshake_invariant_register _ _ _ _ (by simp)
      apply handshake_invariant_issue _ _ hinv
      exact in_order_of_other _ _ _ (by simp) (by simp)
    all_goals exact hinv
  | monitored_sink_info i_index eol op_ok =>
    simp only [deliver, get_monitored_sink_idx_cb]
    split_ifs with h1 h2
    · exact hinv
    · exact hinv
    · have hidx : i_index ≠ PA_INVALID_INDEX := by
        have := hwf (not_not.mp h1)
        omega
      apply handshake_invariant_register _ _ _ _ (fun _ => by simpa [Session.issue] using hidx)
      apply handshake_invariant_issue
      · exact handshake_invariant_monitor _ _ hinv (fun _ => hidx)
      · exact in_order_of_other _ _ _ (by simp) (by simp)
    · have hidx : i_index ≠ PA_INVALID_INDEX := by
        have := hwf (not_not.mp h1)
        omega
      apply handshake_invariant_quit
      apply handshake_invariant_issue
      · exact handshake_invariant_monitor _ _ hinv (fun _ => hidx)
      · exact in_order_of_other _ _ _ (by simp) (by simp)
  | sink_input_info i_index i_sink eol op_ok =>
    simp only [deliver, get_sink_input_idx_cb]
    split_ifs with h1 h2 h3
    · exact hinv
    · exact hinv
    · have hsink : s.monitor.sink_idx ≠ PA_INVALID_INDEX := hinv.1 hp
      apply handshake_invariant_register _ _ _ _ (by simp)
      apply handshake_invariant_issue
      · exact handshake_invariant_monitor _ _ hinv (fun h => h)
      · exact ⟨fun _ _ _ _ => hsink, fun _ _ h => by simp at h⟩
    · exact hinv
  | module_loaded idx op_ok =>
    simp only [deliver, create_virtual_sink_cb]
    split_ifs with h1 h2
    · exact hinv
    · apply handshake_invariant_register _ _ _ _ (by simp)
      apply handshake_invariant_issue
      · exact handshake_invariant_monitor _ _ hinv (fun h => h)
      · exact in_order_of_other _ _ _ (by simp) (by simp)
    · apply handshake_invariant_quit
      apply handshake_invariant_issue
      · exact handshake_invariant_monitor _ _ hinv (fun h => h)
      · exact in_order_of_other _ _ _ (by simp) (by simp)
  | virtual_sink_info i_index eol op_ok =>
    simp only [deliver, get_virtual_sink_idx_cb]
    split_ifs with h1
    · exact hinv
    · have hidx : i_index ≠ PA_INVALID_INDEX := by
        have := hwf (not_not.mp h1)
        omega
      apply handshake_invariant_register _ _ _ _ (by simp)
      apply handshake_invariant_issue
      · exact handshake_invariant_monitor _ _ hinv (fun h => h)
      · exact ⟨fun _ _ _ h => by simp at h, fun _ _ h => by
          simp only [Request.move_sink_input_by_index.injEq] at h
          exact ⟨hidx, h.2.1.symm⟩⟩
  | moved_to_virtual_sink success op_ok =>
    simp only [deliver, redirect_sink_input_to_virtual_sink_cb]
    split_ifs with h1
    · exact hinv
    · apply handshake_invariant_register _ _ _ _ (by simp)
      apply handshake_invariant_issue _ _ hinv
      exact in_order_of_other _ _ _ (by simp) (by simp)
  | virtual_sink_monitor_name name eol r cr p cp =>
    simp only [deliver, get_virtual_sink_monitor_name_cb]
    have hA : handshake_invariant
        { s with monitor := { s.monitor with
            virtual_sink_monitor_name := name, record_stream := r } } :=
      handshake_invariant_monitor _ _ hinv (fun h => h)
    have hB := handshake_invariant_issue _ (.stream_connect_record name) hA
      (in_order_of_other _ _ _ (by simp) (by simp))
    have hC := handshake_invariant_register _ Callback.stream_read_cb true hB (by simp)
    split_ifs
    · exact hinv
    · exact hA
    · exact hB
    · exact handshake_invariant_monitor _ _ hC (fun h => h)
    · apply handshake_invariant_quit
      apply handshake_invariant_issue
      · exact handshake_invariant_monitor _ _ hC (fun h => h)
      · exact in_order_of_other _ _ _ (by simp) (by simp)
    · apply handshake_invariant_issue
      · exact handshake_invariant_monitor _ _ hC (fun h => h)
      · exact in_order_of_other _ _ _ (by simp) (by simp)
  | stream_read peek write_result o1 o2 =>
    cases peek with
    | none => exact hinv
    | some data =>
      simp only [deliver, stream_read_cb]
      have hA := handshake_invariant_issue _ (.stream_write data) hinv
        (in_order_of_other _ _ _ (by simp) (by simp))
      split_ifs
      · exact hA
      · apply handshake_invariant_monitor _ _ _ (fun h => h)
        apply handshake_invariant_register _ _ _ _ (by simp)
        apply handshake_invariant_issue
        · apply handshake_invariant_register _ _ _ _ (by simp)
          apply handshake_invariant_issue
          · exact handshake_invariant_monitor _ _ hA (fun h => h)
          · exact in_order_of_other _ _ _ (by simp) (by simp)
        · exact in_order_of_other _ _ _ (by simp) (by simp)
  | sink_volume volume eol =>
    simp only [deliver, get_sink_volume_cb]
    split_ifs
    · exact hinv
    · exact handshake_invariant_monitor _ _ hinv (fun h => h)
  | sink_input_volume volume eol =>
    simp only [deliver, get_sink_input_volume_cb]
    split_ifs
    · exact hinv
    · exact handshake_invariant_monitor _ _ hinv (fun h => h)

theorem reachable_until_move : Reachable (session_after events_until_move) := by
  have h0 := Reachable.init "dev.monitor".toList 17640 "a1B2c3D4".toList
  have h1 := Reachable.step _ (.context_state .READY true) h0 (by decide) trivial
  have h2 := Reachable.step _ (.monitored_sink_info 3 0 true) h1 (by decide)
    (fun _ => by decide)
  have h3 := Reachable.step _ (.sink_input_info 7 3 0 true) h2 (by decide) trivial
  have h4 := Reachable.step _ (.module_loaded 20 true) h3 (by decide) trivial
  have h5 := Reachable.step _ (.virtual_sink_info 5 0 true) h4 (by decide)
    (fun _ => by decide)
  exact h5

/-- C10: in every reachable session, every `load_module` of the trace was made with
`sink_idx` resolved, and every move of the producer onto the virtual sink was made
with `virtual_sink_idx` resolved and as its target, whatever events were delivered,
in whatever order, among those whose callback was registered. -/
theorem handshake_ordering (s : Session) (h : Reachable s) :
    ∀ e ∈ s.trace,
      (∀ name argument cb, e.request = .load_module name argument cb →
        e.sink_idx ≠ PA_INVALID_INDEX) ∧
      (∀ idx target, e.request
          = .move_sink_input_by_index idx target .redirect_sink_input_to_virtual_sink_cb →
        e.virtual_sink_idx ≠ PA_INVALID_INDEX ∧ target = e.virtual_sink_idx) := by
  have hinv : handshake_invariant s := by
    induction h with
    | init name delay_bytes random_string =>
      exact handshake_invariant_new name delay_bytes random_string
    | step s ev _ hp hwf ih => exact handshake_invariant_deliver s ev ih hp hwf
    | read s length data _ ih =>
      refine handshake_invariant_monitor s _ ih ?_
      intro hs
      simp only [get_data]
      split_ifs
      · exact hs
      · exact hs
  exact hinv.2

/-- C10 at a reachable session: after the handshake has loaded the null sink and moved
the producer onto it, the trace holds both requests and they are in order. -/
theorem handshake_ordering_witness :
    Reachable (session_after events_until_move) ∧
    (session_after events_until_move).trace.length = 6 ∧
    (∀ e ∈ (session_after events_until_move).trace,
      (∀ name argument cb, e.request = .load_module name argument cb →
        e.sink_idx ≠ PA_INVALID_INDEX) ∧
      (∀ idx target, e.request
          = .move_sink_input_by_index idx target .redirect_sink_input_to_virtual_sink_cb →
        e.virtual_sink_idx ≠ PA_INVALID_INDEX ∧ target = e.virtual_sink_idx)) :=
  ⟨reachable_until_move, by decide,
    handshake_ordering (session_after events_until_move) reachable_until_move⟩

/-! ## Lemmas on the teardown -/

theorem issue_monitor (s : Session) (r : Request) : (s.issue r).monitor = s.monitor :=
  rfl

theorem issue_trace (s : Session) (r : Request) :
    (s.issue r).trace = s.trace ++ [⟨r, s.monitor.sink_idx, s.monitor.virtual_sink_idx⟩] :=
  rfl

theorem register_monitor (s : Session) (cb : Callback) (ok : Bool) :
    (s.register cb ok).monitor = s.monitor := by
  cases ok <;> rfl

theorem register_trace (s : Session) (cb : Callback) (ok : Bool) :
    (s.register cb ok).trace = s.trace := by
  cases ok <;> rfl

theorem stop_of_no_mainloop (s : Session) (move_op unload_op : Option (List OperationState))
    (h : s.monitor.mainloop = false) : stop s move_op unload_op = (s, true) := by
  simp [stop, h]

theorem stop_clears_mainloop (s : Session) (move_op unload_op : Option (List OperationState))
    (h : (stop s move_op unload_op).2 = true) :
    (stop s move_op unload_op).1.monitor.mainloop = false := by
  by_cases hm : s.monitor.mainloop = false
  · rw [stop_of_no_mainloop s move_op unload_op hm]
    exact hm
  · have hm1 : s.monitor.mainloop = true := by simpa using hm
    revert h
    simp only [stop, hm1, Bool.not_true, Bool.false_eq_true, if_false]
    generalize (if (stop_streams s).monitor.context = true
      then stop_context (stop_streams s) move_op unload_op else (stop_streams s, true)) = torn
    obtain ⟨t, b⟩ := torn
    cases b <;> simp

theorem stop_context_returns (s : Session) (move_op unload_op : Option (List OperationState))
    (hmove : wait_for move_op = true) (hunload : wait_for unload_op = true) :
    (stop_context s move_op unload_op).2 = true := by
  have h1 : (stop_move_back s move_op).2 = true := by
    unfold stop_move_back
    split_ifs
    · exact hmove
    · rfl
  have h2 : (stop_unload (stop_move_back s move_op).1 unload_op).2 = true := by
    unfold stop_unload
    split_ifs
    · exact hunload
    · rfl
  simp [stop_context, h1, h2]

theorem stop_returns (s : Session) (move_op unload_op : Option (List OperationState))
    (hmove : wait_for move_op = true) (hunload : wait_for unload_op = true) :
    (stop s move_op unload_op).2 = true := by
  by_cases hm : s.monitor.mainloop = false
  · rw [stop_of_no_mainloop s move_op unload_op hm]
  · have hm1 : s.monitor.mainloop = true := by simpa using hm
    have htorn : (if (stop_streams s).monitor.context = true
        then stop_context (stop_streams s) move_op unload_op
        else (stop_streams s, true)).2 = true := by
      split_ifs
      · exact stop_context_returns _ _ _ hmove hunload
      · rfl
    simp [stop, hm1, htorn]

/-! ## C11: `stop()` called twice -/

/-- C11: for every session, when a call of `stop()` has returned, a second call
returns at once with the same session, so it makes no request (no stream
disconnect, move, unload or context disconnect); and on a monitor without a
mainloop, as the constructor leaves it when it rejects the name, `stop()` returns
at once and changes nothing. The first call returns as soon as both operations it
waits for leave the running state. -/
theorem stop_idempotent (s : Session)
    (move_op unload_op move_op2 unload_op2 : Option (List OperationState)) :
    ((stop s move_op unload_op).2 = true →
      stop (stop s move_op unload_op).1 move_op2 unload_op2
        = ((stop s move_op unload_op).1, true) ∧
      (stop (stop s move_op unload_op).1 move_op2 unload_op2).1.trace
        = (stop s move_op unload_op).1.trace) ∧
    (s.monitor.mainloop = false → stop s move_op unload_op = (s, true)) ∧
    (∀ name delay_bytes random_string, string_find monitor_suffix name = none →
      stop (PulseAudioMonitor.new name delay_bytes random_string) move_op unload_op
        = (PulseAudioMonitor.new name delay_bytes random_string, true)) ∧
    (wait_for move_op = true → wait_for unload_op = true →
      (stop s move_op unload_op).2 = true) := by
  refine ⟨fun h => ?_, stop_of_no_mainloop s move_op unload_op, ?_,
    stop_returns s move_op unload_op⟩
  · have hm := stop_clears_mainloop s move_op unload_op h
    have h2 := stop_of_no_mainloop (stop s move_op unload_op).1 move_op2 unload_op2 hm
    exact ⟨h2, by rw [h2]⟩
  · intro name delay_bytes random_string hname
    apply stop_of_no_mainloop
    rw [new_of_none name delay_bytes random_string hname]

/-- C11 at a session: after a whole handshake, `stop()` disconnects both streams,
moves sink input 7 back to sink 3, unloads module 20 and disconnects the context;
called again it returns the same session. -/
theorem stop_idempotent_witness :
    (stop (session_after events_of_handshake) (some [.RUNNING, .DONE]) (some [.DONE])).2 = true ∧
    (stop (session_after events_of_handshake) (some [.RUNNING, .DONE])
        (some [.DONE])).1.trace.map Issued.request
      = (session_after events_of_handshake).trace.map Issued.request ++
        [.stream_disconnect_record, .stream_disconnect_playback,
         .move_sink_input_by_index 7 3 .redirect_sink_input_cb,
         .unload_module 20 .unload_module_cb, .context_disconnect] ∧
    stop (stop (session_after events_of_handshake) (some [.RUNNING, .DONE]) (some [.DONE])).1
        (some [.RUNNING]) none
      = ((stop (session_after events_of_handshake) (some [.RUNNING, .DONE])
          (some [.DONE])).1, true) :=
  ⟨by decide, by decide,
    ((stop_idempotent (session_after events_of_handshake) (some [.RUNNING, .DONE])
      (some [.DONE]) (some [.RUNNING]) none).1 (by decide)).1⟩

/-! ## C12: what `stop()` requests from a session of the handshake -/

theorem selection_deliver (s : Session) (ev : Event)
    (hinv : handshake_invariant s)
    (hsel : s.monitor.sink_input_idx ≠ PA_INVALID_INDEX → s.monitor.sink_idx ≠ PA_INVALID_INDEX)
    (hp : ev.callback ∈ s.pending) (hwf : ev.well_formed) :
    (deliver s ev).monitor.sink_input_idx ≠ PA_INVALID_INDEX →
      (deliver s ev).monitor.sink_idx ≠ PA_INVALID_INDEX := by
  cases ev with
  | context_state state op_ok =>
    cases state <;>
      simp only [deliver, context_state_cb, register_monitor, issue_monitor, Session.quit] <;>
      exact hsel
  | monitored_sink_info i_index eol op_ok =>
    simp only [deliver, get_monitored_sink_idx_cb]
    split_ifs with h1 h2 h3
    · exact hsel
    · exact hsel
    · intro _
      simp only [register_monitor, issue_monitor]
      exact Nat.ne_of_lt (hwf (not_not.mp h1))
    · intro _
      simp only [Session.quit, issue_monitor]
      exact Nat.ne_of_lt (hwf (not_not.mp h1))
  | sink_input_info i_index i_sink eol op_ok =>
    simp only [deliver, get_sink_input_idx_cb]
    split_ifs with h1 h2 h3
    · exact hsel
    · exact hsel
    · intro _
      simp only [register_monitor, issue_monitor]
      exact hinv.1 hp
    · exact hsel
  | module_loaded idx op_ok =>
    simp only [deliver, create_virtual_sink_cb]
    split_ifs <;> exact hsel
  | virtual_sink_info i_index eol op_ok =>
    simp only [deliver, get_virtual_sink_idx_cb]
    split_ifs <;>
      first
      | exact hsel
      | (simp only [register_monitor, issue_monitor, Session.quit]; exact hsel)
  | moved_to_virtual_sink success op_ok =>
    simp only [deliver, redirect_sink_input_to_virtual_sink_cb]
    split_ifs <;>
      first
      | exact hsel
      | (simp only [register_monitor, issue_monitor, Session.quit]; exact hsel)
  | virtual_sink_monitor_name name eol r cr p cp =>
    simp only [deliver, get_virtual_sink_monitor_name_cb]
    split_ifs <;> exact hsel
  | stream_read peek write_result o1 o2 =>
    cases peek with
    | none => exact hsel
    | some data =>
      simp only [deliver, stream_read_cb]
      split_ifs <;>
      first
      | exact hsel
      | (simp only [register_monitor, issue_monitor, Session.quit]; exact hsel)
  | sink_volume volume eol =>
    simp only [deliver, get_sink_volume_cb]
    split_ifs <;> exact hsel
  | sink_input_volume volume eol =>
    simp only [deliver, get_sink_input_volume_cb]
    split_ifs <;> exact hsel

theorem reachable_invariants (s : Session) (h : Reachable s) :
    handshake_invariant s ∧
    (s.monitor.sink_input_idx ≠ PA_INVALID_INDEX → s.monitor.sink_idx ≠ PA_INVALID_INDEX) := by
  induction h with
  | init name delay_bytes random_string =>
    refine ⟨handshake_invariant_new name delay_bytes random_string, ?_⟩
    cases h : string_find monitor_suffix name <;> simp [PulseAudioMonitor.new, h]
  | step s ev _ hp hwf ih =>
    exact ⟨handshake_invariant_deliver s ev ih.1 hp hwf,
      selection_deliver s ev ih.1 ih.2 hp hwf⟩
  | read s length data _ ih =>
    have hm : (get_data s.monitor length data).1.sink_idx = s.monitor.sink_idx ∧
        (get_data s.monitor length data).1.sink_input_idx = s.monitor.sink_input_idx := by
      simp only [get_data]
      split_ifs <;> exact ⟨rfl, rfl⟩
    refine ⟨handshake_invariant_monitor s _ ih.1 (fun hs => by rw [hm.1]; exact hs), ?_⟩
    show (get_data s.monitor length data).1.sink_input_idx ≠ PA_INVALID_INDEX →
      (get_data s.monitor length data).1.sink_idx ≠ PA_INVALID_INDEX
    rw [hm.1, hm.2]
    exact ih.2

theorem stop_streams_effect (s : Session) (a b c : Nat) :
    (∃ new, (stop_streams s).trace = s.trace ++ new ∧ ∀ e ∈ new, e.teardown_ok a b c) ∧
    (stop_streams s).monitor.sink_input_idx = s.monitor.sink_input_idx ∧
    (stop_streams s).monitor.sink_idx = s.monitor.sink_idx ∧
    (stop_streams s).monitor.virtual_sink_module_idx = s.monitor.virtual_sink_module_idx := by
  unfold stop_streams
  cases hr : s.monitor.record_stream <;> cases hp : s.monitor.playback_stream <;>
    simp only [hp, Bool.false_eq_true, if_false, if_true, issue_trace, issue_monitor,
      List.append_assoc, List.singleton_append, and_self, and_true]
  · exact ⟨[], by simp, by simp⟩
  · refine ⟨_, rfl, ?_⟩
    simp [Issued.teardown_ok]
  · refine ⟨_, rfl, ?_⟩
    simp [Issued.teardown_ok]
  · refine ⟨_, rfl, ?_⟩
    simp [Issued.teardown_ok]

theorem stop_move_back_effect (s : Session) (move_op : Option (List OperationState))
    (c : Nat) :
    (∃ new, (stop_move_back s move_op).1.trace = s.trace ++ new ∧
      ∀ e ∈ new, e.teardown_ok s.monitor.sink_input_idx s.monitor.sink_idx c) ∧
    (stop_move_back s move_op).1.monitor = s.monitor := by
  unfold stop_move_back
  split_ifs with h
  · simp only [register_trace, register_monitor, issue_trace, issue_monitor, and_true]
    refine ⟨_, rfl, ?_⟩
    simpa [Issued.teardown_ok] using h
  · exact ⟨⟨[], by simp, by simp⟩, rfl⟩

theorem stop_unload_effect (s : Session) (unload_op : Option (List OperationState))
    (a b : Nat) :
    (∃ new, (stop_unload s unload_op).1.trace = s.trace ++ new ∧
      ∀ e ∈ new, e.teardown_ok a b s.monitor.virtual_sink_module_idx) ∧
    (stop_unload s unload_op).1.monitor.sink_input_idx = s.monitor.sink_input_idx ∧
    (stop_unload s unload_op).1.monitor.sink_idx = s.monitor.sink_idx := by
  unfold stop_unload
  split_ifs with h
  · simp only [register_trace, register_monitor, issue_trace, issue_monitor, and_self, and_true]
    refine ⟨_, rfl, ?_⟩
    simpa [Issued.teardown_ok] using h
  · exact ⟨⟨[], by simp, by simp⟩, rfl, rfl⟩

theorem trace_extends_trans {P : Issued → Prop} {t t1 t2 : List Issued}
    (h1 : ∃ new, t1 = t ++ new ∧ ∀ e ∈ new, P e)
    (h2 : ∃ new, t2 = t1 ++ new ∧ ∀ e ∈ new, P e) :
    ∃ new, t2 = t ++ new ∧ ∀ e ∈ new, P e := by
  obtain ⟨n1, e1, p1⟩ := h1
  obtain ⟨n2, e2, p2⟩ := h2
  refine ⟨n1 ++ n2, by rw [e2, e1, List.append_assoc], ?_⟩
  intro e he
  rcases List.mem_append.mp he with h | h
  · exact p1 e h
  · exact p2 e h

theorem stop_context_effect (s : Session) (move_op unload_op : Option (List OperationState)) :
    ∃ new, (stop_context s move_op unload_op).1.trace = s.trace ++ new ∧
      ∀ e ∈ new, e.teardown_ok s.monitor.sink_input_idx s.monitor.sink_idx
        s.monitor.virtual_sink_module_idx := by
  obtain ⟨hmove, hmon⟩ := stop_move_back_effect s move_op s.monitor.virtual_sink_module_idx
  have hunload := (stop_unload_effect (stop_move_back s move_op).1 unload_op
    s.monitor.sink_input_idx s.monitor.sink_idx).1
  rw [hmon] at hunload
  have hboth := trace_extends_trans hmove hunload
  unfold stop_context
  cases h1 : (stop_move_back s move_op).2
  · simpa [h1] using hmove
  · cases h2 : (stop_unload (stop_move_back s move_op).1 unload_op).2
    · simpa [h1, h2] using hboth
    · simp only [h1, h2, Bool.not_true, Bool.false_eq_true, if_false, issue_trace]
      refine trace_extends_trans hboth ⟨_, rfl, ?_⟩
      simp [Issued.teardown_ok]

theorem stop_effect (s : Session) (move_op unload_op : Option (List OperationState)) :
    ∃ new, (stop s move_op unload_op).1.trace = s.trace ++ new ∧
      ∀ e ∈ new, e.teardown_ok s.monitor.sink_input_idx s.monitor.sink_idx
        s.monitor.virtual_sink_module_idx := by
  obtain ⟨hstreams, h1, h2, h3⟩ := stop_streams_effect s s.monitor.sink_input_idx
    s.monitor.sink_idx s.monitor.virtual_sink_module_idx
  have hcontext := stop_context_effect (stop_streams s) move_op unload_op
  rw [h1, h2, h3] at hcontext
  have hboth := trace_extends_trans hstreams hcontext
  cases hm : s.monitor.mainloop
  · rw [stop_of_no_mainloop s move_op unload_op hm]
    exact ⟨[], by simp, by simp⟩
  · cases hc : (stop_streams s).monitor.context
    · simpa [stop, hm, hc] using hstreams
    · cases hr : (stop_context (stop_streams s) move_op unload_op).2
      · simpa [stop, hm, hc, hr] using hboth
      · simpa [stop, hm, hc, hr] using hboth

theorem reachable_until_load_module :
    Reachable (session_after events_until_load_module) := by
  have h0 := Reachable.init "dev.monitor".toList 17640 "a1B2c3D4".toList
  have h1 := Reachable.step _ (.context_state .READY true) h0 (by decide) trivial
  have h2 := Reachable.step _ (.monitored_sink_info 3 0 true) h1 (by decide)
    (fun _ => by decide)
  have h3 := Reachable.step _ (.sink_input_info 7 3 0 true) h2 (by decide) trivial
  exact h3

/-- C12, the claim as stated fails: in the session where sink input 7 was selected
and the load of the null sink requested, no move was ever requested, so the
producer was not redirected; yet `stop()` requests the move of sink input 7 to
sink 3, because its test is `sink_input_idx != PA_INVALID_INDEX`. -/
theorem stop_moves_back_unredirected_producer :
    Reachable (session_after events_until_load_module) ∧
    (session_after events_until_load_module).trace.map Issued.request
      = [.context_connect,
         .get_sink_info_by_name "dev".toList .get_monitored_sink_idx_cb,
         .get_sink_input_info_list .get_sink_input_idx_cb,
         load_null_sink (session_after events_until_load_module)] ∧
    (stop (session_after events_until_load_module) (some [.DONE]) (some [.DONE])).1.trace.map
        Issued.request
      = (session_after events_until_load_module).trace.map Issued.request ++
        [.move_sink_input_by_index 7 3 .redirect_sink_input_cb, .context_disconnect] :=
  ⟨reachable_until_load_module, by decide, by decide⟩

/-- C12, amended: for every session reachable by the handshake, `stop()` requests the
move back only if `sink_input_idx != PA_INVALID_INDEX` (a producer was selected,
redirected or not), and then for `sink_input_idx` and the target `sink_idx`, both
different from `PA_INVALID_INDEX`; it requests `unload_module` only for
`virtual_sink_module_idx`, different from `PA_INVALID_INDEX`; with nothing resolved
it requests neither. -/
theorem stop_requests_resolved (s : Session) (h : Reachable s)
    (move_op unload_op : Option (List OperationState)) :
    ∃ new, (stop s move_op unload_op).1.trace = s.trace ++ new ∧
      (∀ e ∈ new, ∀ idx target cb, e.request = .move_sink_input_by_index idx target cb →
        s.monitor.sink_input_idx ≠ PA_INVALID_INDEX ∧
        idx = s.monitor.sink_input_idx ∧ target = s.monitor.sink_idx ∧
        idx ≠ PA_INVALID_INDEX ∧ target ≠ PA_INVALID_INDEX) ∧
      (∀ e ∈ new, ∀ idx cb, e.request = .unload_module idx cb →
        idx = s.monitor.virtual_sink_module_idx ∧ idx ≠ PA_INVALID_INDEX) ∧
      (s.monitor.sink_input_idx = PA_INVALID_INDEX →
        s.monitor.virtual_sink_module_idx = PA_INVALID_INDEX →
        ∀ e ∈ new,
          (∀ idx target cb, e.request ≠ .move_sink_input_by_index idx target cb) ∧
          (∀ idx cb, e.request ≠ .unload_module idx cb)) := by
  obtain ⟨new, htrace, hok⟩ := stop_effect s move_op unload_op
  have hsel := (reachable_invariants s h).2
  refine ⟨new, htrace, ?_, ?_, ?_⟩
  · intro e he idx target cb hreq
    obtain ⟨_, hidx, htarget, hres⟩ := (hok e he).1 idx target cb hreq
    refine ⟨hres, hidx, htarget, ?_, ?_⟩
    · rw [hidx]
      exact hres
    · rw [htarget]
      exact hsel hres
  · intro e he idx cb hreq
    obtain ⟨_, hidx, hres⟩ := (hok e he).2 idx cb hreq
    refine ⟨hidx, ?_⟩
    rw [hidx]
    exact hres
  · intro h1 h2 e he
    refine ⟨fun idx target cb hreq => ?_, fun idx cb hreq => ?_⟩
    · exact ((hok e he).1 idx target cb hreq).2.2.2 h1
    · exact ((hok e he).2 idx cb hreq).2.2 h2

/-- C12, amended, at two sessions of the handshake. With only the context connected
and nothing resolved, `stop()` requests the disconnect of the context and nothing
else; after the move onto the virtual sink was requested, it requests the move of
sink input 7 to sink 3 and the unload of module 20. -/
theorem stop_requests_resolved_witness :
    (stop (session_after []) none none).1.trace.map Issued.request
      = [.context_connect, .context_disconnect] ∧
    (stop (session_after events_until_move) (some [.DONE]) (some [.DONE])).1.trace.map
        Issued.request
      = (session_after events_until_move).trace.map Issued.request ++
        [.move_sink_input_by_index 7 3 .redirect_sink_input_cb,
         .unload_module 20 .unload_module_cb, .context_disconnect] ∧
    Reachable (session_after events_until_move) ∧
    ∃ new, (stop (session_after events_until_move) (some [.DONE]) (some [.DONE])).1.trace
        = (session_after events_until_move).trace ++ new ∧
      (∀ e ∈ new, ∀ idx target cb, e.request = .move_sink_input_by_index idx target cb →
        (session_after events_until_move).monitor.sink_input_idx ≠ PA_INVALID_INDEX ∧
        idx = (session_after events_until_move).monitor.sink_input_idx ∧
        target = (session_after events_until_move).monitor.sink_idx ∧
        idx ≠ PA_INVALID_INDEX ∧ target ≠ PA_INVALID_INDEX) ∧
      (∀ e ∈ new, ∀ idx cb, e.request = .unload_module idx cb →
        idx = (session_after events_until_move).monitor.virtual_sink_module_idx ∧
        idx ≠ PA_INVALID_INDEX) ∧
      ((session_after events_until_move).monitor.sink_input_idx = PA_INVALID_INDEX →
        (session_after events_until_move).monitor.virtual_sink_module_idx = PA_INVALID_INDEX →
        ∀ e ∈ new,
          (∀ idx target cb, e.request ≠ .move_sink_input_by_index idx target cb) ∧
          (∀ idx cb, e.request ≠ .unload_module idx cb)) :=
  ⟨by decide, by decide, reachable_until_move,
    stop_requests_resolved (session_after events_until_move) reachable_until_move
      (some [.DONE]) (some [.DONE])⟩

/-! ## C13: unity gain -/

theorem scale_sample_one (x : Int) (hlo : -32768 ≤ x) (hhi : x ≤ 32767) :
    scale_sample x 1 = x := by
  unfold scale_sample
  rw [mul_one, Rat.intCast_num, Rat.intCast_den]
  simp only [Nat.cast_one, Int.tdiv_one, to_int16]
  show ((x + 32768) % 65536 - 32768 : Int) = x
  omega

theorem stream_read_cb_volumes (s : Session) (peek : Option (List DataType))
    (write_result : Int) (sink_op_ok sink_input_op_ok : Bool) :
    (stream_read_cb s peek write_result sink_op_ok sink_input_op_ok).monitor.current_sink_volume
      = s.monitor.current_sink_volume ∧
    (stream_read_cb s peek write_result sink_op_ok
        sink_input_op_ok).monitor.current_sink_input_volume
      = s.monitor.current_sink_input_volume := by
  cases peek with
  | none => exact ⟨rfl, rfl⟩
  | some data =>
    simp only [stream_read_cb]
    split_ifs
    · exact ⟨rfl, rfl⟩
    · simp only [register_monitor, issue_monitor, and_self]

/-- C13: when the two cached volumes are `PA_VOLUME_NORM`, the factor
`stream_read_cb` computes is exactly 1, a sample of 16 bits multiplied by it is
the same sample, and the samples `stream_read_cb` appends to the buffer are the
captured samples, after the samples that were there. -/
theorem unity_gain_leaves_samples (s : Session) (data : List DataType) (write_result : Int)
    (sink_op_ok sink_input_op_ok : Bool)
    (hsink : s.monitor.current_sink_volume = PA_VOLUME_NORM)
    (hinput : s.monitor.current_sink_input_volume = PA_VOLUME_NORM)
    (hwrite : 0 ≤ write_result) :
    normalization_factor s.monitor = 1 ∧
    normalization_factor
      (stream_read_cb s (some data) write_result sink_op_ok sink_input_op_ok).monitor = 1 ∧
    (∀ x : DataType, -32768 ≤ x → x ≤ 32767 →
      scale_sample x (normalization_factor s.monitor) = x) ∧
    (stream_read_cb s (some data) write_result sink_op_ok
        sink_input_op_ok).monitor.data_queue.dq_
      = s.monitor.data_queue.dq_ ++ data := by
  have hone : ∀ m : PulseAudioMonitor, m.current_sink_volume = PA_VOLUME_NORM →
      m.current_sink_input_volume = PA_VOLUME_NORM → normalization_factor m = 1 := by
    intro m h1 h2
    simp only [normalization_factor, h1, h2, PA_VOLUME_NORM]
    norm_num
  have hvol := stream_read_cb_volumes s (some data) write_result sink_op_ok sink_input_op_ok
  refine ⟨hone _ hsink hinput, hone _ (by rw [hvol.1, hsink]) (by rw [hvol.2, hinput]), ?_, ?_⟩
  · intro x hlo hhi
    rw [hone _ hsink hinput]
    exact scale_sample_one x hlo hhi
  · rw [stream_read_cb_data_queue s data write_result sink_op_ok sink_input_op_ok hwrite]

/-- C13 at a session: the volumes are those the constructor leaves, the buffer holds
one sample and the block `[100, 200]` is captured. -/
theorem unity_gain_leaves_samples_witness :
    (PulseAudioMonitor.new "dev.monitor".toList 17640 "a1B2c3D4".toList).monitor.current_sink_volume
      = PA_VOLUME_NORM ∧
    (PulseAudioMonitor.new "dev.monitor".toList 17640
        "a1B2c3D4".toList).monitor.current_sink_input_volume = PA_VOLUME_NORM ∧
    normalization_factor (session_holding [5] PA_VOLUME_NORM PA_VOLUME_NORM).monitor = 1 ∧
    (stream_read_cb (session_holding [5] PA_VOLUME_NORM PA_VOLUME_NORM) (some [100, 200]) 0 true
        true).monitor.data_queue.dq_ = [5] ++ [100, 200] :=
  ⟨by decide, by decide,
    (unity_gain_leaves_samples (session_holding [5] PA_VOLUME_NORM PA_VOLUME_NORM) [100, 200] 0
      true true rfl rfl (le_refl 0)).1,
    (unity_gain_leaves_samples (session_holding [5] PA_VOLUME_NORM PA_VOLUME_NORM) [100, 200] 0
      true true rfl rfl (le_refl 0)).2.2.2⟩

/-! ## C14: the sink input that is selected -/

theorem enumerate_no_match (op_ok : Bool) (entries : List SinkInputInfo) :
    ∀ s : Session, (∀ x ∈ entries, x.sink ≠ s.monitor.sink_idx) →
      entries.foldl (fun acc e => get_sink_input_idx_cb acc e.index e.sink 0 op_ok) s = s := by
  induction entries with
  | nil => intro s _; rfl
  | cons x xs ih =>
    intro s hne
    have hx : x.sink ≠ s.monitor.sink_idx := hne x (List.mem_cons_self x xs)
    have hstep : get_sink_input_idx_cb s x.index x.sink 0 op_ok = s := by
      unfold get_sink_input_idx_cb
      split_ifs <;> rfl
    rw [List.foldl_cons, hstep]
    exact ih s (fun y hy => hne y (List.mem_cons_of_mem x hy))

theorem enumerate_resolved (op_ok : Bool) (entries : List SinkInputInfo) :
    ∀ s : Session, s.monitor.sink_input_idx ≠ PA_INVALID_INDEX →
      entries.foldl (fun acc e => get_sink_input_idx_cb acc e.index e.sink 0 op_ok) s = s := by
  induction entries with
  | nil => intro s _; rfl
  | cons x xs ih =>
    intro s hres
    have hstep : get_sink_input_idx_cb s x.index x.sink 0 op_ok = s := by
      unfold get_sink_input_idx_cb
      split_ifs <;> rfl
    rw [List.foldl_cons, hstep]
    exact ih s hres

theorem get_sink_input_idx_cb_eol (s : Session) (i_index i_sink : Nat) (eol : Int)
    (op_ok : Bool) (h : eol ≠ 0) : get_sink_input_idx_cb s i_index i_sink eol op_ok = s := by
  unfold get_sink_input_idx_cb
  rw [if_pos h]

theorem get_sink_input_idx_cb_match (s : Session) (e : SinkInputInfo) (op_ok : Bool)
    (h0 : s.monitor.sink_input_idx = PA_INVALID_INDEX) (hsink : e.sink = s.monitor.sink_idx) :
    (get_sink_input_idx_cb s e.index e.sink 0 op_ok).monitor.sink_input_idx = e.index ∧
    (get_sink_input_idx_cb s e.index e.sink 0 op_ok).trace
      = s.trace ++ [⟨load_null_sink s, s.monitor.sink_idx, s.monitor.virtual_sink_idx⟩] := by
  unfold get_sink_input_idx_cb
  rw [if_neg (by simp), if_neg (by simp [h0]), if_pos hsink]
  simp only [register_monitor, register_trace, issue_monitor, issue_trace, load_null_sink,
    and_self]

/-- C14: the enumeration starts with `sink_input_idx` unresolved and every sink input
has a valid index. Then `sink_input_idx` ends as the index of the first entry whose
sink is `sink_idx`, the entries after it change nothing, and the enumeration adds
exactly one request to the trace, the `load_module` of the null sink; when no
entry has sink `sink_idx` the session is unchanged, so `sink_input_idx` stays
unresolved and no `load_module` is made. -/
theorem first_match_selected (s : Session) (entries : List SinkInputInfo) (op_ok : Bool)
    (last_eol : Int)
    (h0 : s.monitor.sink_input_idx = PA_INVALID_INDEX)
    (hvalid : ∀ e ∈ entries, e.index ≠ PA_INVALID_INDEX)
    (hlast : last_eol ≠ 0) :
    (∀ pre e post, entries = pre ++ e :: post → e.sink = s.monitor.sink_idx →
      (∀ x ∈ pre, x.sink ≠ s.monitor.sink_idx) →
      (enumerate_sink_inputs s entries op_ok last_eol).monitor.sink_input_idx = e.index ∧
      (enumerate_sink_inputs s entries op_ok last_eol).trace
        = s.trace ++ [⟨load_null_sink s, s.monitor.sink_idx, s.monitor.virtual_sink_idx⟩]) ∧
    ((∀ x ∈ entries, x.sink ≠ s.monitor.sink_idx) →
      enumerate_sink_inputs s entries op_ok last_eol = s) := by
  refine ⟨?_, ?_⟩
  · intro pre e post hsplit hsink hpre
    unfold enumerate_sink_inputs
    rw [get_sink_input_idx_cb_eol _ _ _ _ _ hlast, hsplit, List.foldl_append,
      enumerate_no_match op_ok pre s hpre, List.foldl_cons]
    obtain ⟨hidx, htrace⟩ := get_sink_input_idx_cb_match s e op_ok h0 hsink
    have hres : (get_sink_input_idx_cb s e.index e.sink 0 op_ok).monitor.sink_input_idx
        ≠ PA_INVALID_INDEX := by
      rw [hidx]
      exact hvalid e (by rw [hsplit]; simp)
    rw [enumerate_resolved op_ok post _ hres]
    exact ⟨hidx, htrace⟩
  · intro hnone
    unfold enumerate_sink_inputs
    rw [get_sink_input_idx_cb_eol _ _ _ _ _ hlast, enumerate_no_match op_ok entries s hnone]

/-- C14 at a session: sink 3 is resolved and the server lists sink input 6 on sink 2,
then 7 and 8 on sink 3. Sink input 7 is selected and one `load_module` is made. -/
theorem first_match_selected_witness :
    (session_after [.context_state .READY true, .monitored_sink_info 3 0 true]).monitor.sink_idx
      = 3 ∧
    (enumerate_sink_inputs
        (session_after [.context_state .READY true, .monitored_sink_info 3 0 true])
        [⟨6, 2⟩, ⟨7, 3⟩, ⟨8, 3⟩] true 1).monitor.sink_input_idx = 7 ∧
    (enumerate_sink_inputs
        (session_after [.context_state .READY true, .monitored_sink_info 3 0 true])
        [⟨6, 2⟩, ⟨7, 3⟩, ⟨8, 3⟩] true 1).trace
      = (session_after [.context_state .READY true, .monitored_sink_info 3 0 true]).trace ++
        [⟨load_null_sink
            (session_after [.context_state .READY true, .monitored_sink_info 3 0 true]),
          3, PA_INVALID_INDEX⟩] :=
  ⟨by decide,
    (first_match_selected
      (session_after [.context_state .READY true, .monitored_sink_info 3 0 true])
      [⟨6, 2⟩, ⟨7, 3⟩, ⟨8, 3⟩] true 1 (by decide) (by decide) (by decide)).1
      [⟨6, 2⟩] ⟨7, 3⟩ [⟨8, 3⟩] rfl (by decide) (by decide)⟩

end AudioReactiveControls
